import Mathlib

/-!
Verification of the multi-platform synchronization subsystem of the myEcomm
repository, against its natural-language specification.

The TypeScript source is shallowly embedded: Prisma tables become lists of
records, async handlers become pure state-passing functions, thrown errors
become Except values, and external libraries (node crypto AES-256-GCM, the
Bull job queue) are modelled by their documented contracts, parameterized
where the contract leaves the primitive abstract.
-/

set_option maxRecDepth 4000

namespace MyEcomm

/-- The Platform enum of the Prisma schema, as enumerated by
PLATFORM_CONFIGS in src/types/platforms.ts and the switch statements of the
sync engines. -/
inductive Platform where
  | EBAY
  | AMAZON
  | ETSY
  | SHOPIFY
  | WOOCOMMERCE
  | GOOGLE_SHOPPING
deriving DecidableEq, Repr

/-! ## Order status normalization (OrderSyncEngine.normalize*Status)

Each source function returns statusMap[status] or "PENDING", where
statusMap is a plain object literal. JavaScript bracket lookup traverses
the prototype chain, so a key naming an inherited Object.prototype member
("constructor", "toString", ...) yields that truthy member - a function or
object, not a status string - and the or-default never fires. The
embedding therefore returns a JS value: an own string property, a truthy
inherited prototype member, or undefined. -/

/-- The canonical order status enum {PENDING, PROCESSING, SHIPPED, DELIVERED,
CANCELLED, REFUNDED}. -/
def canonicalOrderStatuses : List String :=
  ["PENDING", "PROCESSING", "SHIPPED", "DELIVERED", "CANCELLED", "REFUNDED"]

/-- What a JavaScript bracket lookup followed by an or-default can
produce here: a string (an own property of the object literal, or the
default), a member inherited from Object.prototype (a function, or the
prototype object itself for the dunder proto accessor - always truthy and
never a status string), or undefined. -/
inductive JSValue where
  | str (s : String)
  | protoMember (name : String)
  | undefined
deriving DecidableEq, Repr

/-- The property names a plain object literal inherits from
Object.prototype in Node (ECMAScript standard members plus the Annex B
accessors); looking any of them up on a plain object yields a truthy
value. -/
def objectProtoKeys : List String :=
  ["constructor", "hasOwnProperty", "isPrototypeOf", "propertyIsEnumerable",
   "toLocaleString", "toString", "valueOf", "__proto__",
   "__defineGetter__", "__defineSetter__", "__lookupGetter__",
   "__lookupSetter__"]

/-- JavaScript truthiness of the lookup result: the empty string and
undefined are falsy, inherited prototype members are truthy. -/
def jsTruthy : JSValue → Bool
  | .str s => s != ""
  | .protoMember _ => true
  | .undefined => false

/-- The JavaScript or-operator on the lookup result. -/
def jsOr (v : JSValue) (dflt : JSValue) : JSValue :=
  if jsTruthy v then v else dflt

/-- statusMap[key] on a plain object literal: an own property wins,
otherwise the prototype chain is consulted, otherwise undefined. -/
def jsLookup (entries : List (String × String)) (key : String) : JSValue :=
  match entries.find? (fun e => e.1 == key) with
  | some e => .str e.2
  | none =>
    if key ∈ objectProtoKeys then .protoMember key else .undefined

/-- The eBay statusMap object literal. -/
def ebayStatusMap : List (String × String) :=
  [("NOT_STARTED", "PENDING"), ("IN_PROGRESS", "PROCESSING"),
   ("FULFILLED", "SHIPPED")]

/-- The Amazon statusMap object literal. -/
def amazonStatusMap : List (String × String) :=
  [("Pending", "PENDING"), ("Unshipped", "PROCESSING"),
   ("PartiallyShipped", "PROCESSING"), ("Shipped", "SHIPPED"),
   ("Canceled", "CANCELLED")]

/-- The Etsy statusMap object literal. -/
def etsyStatusMap : List (String × String) :=
  [("open", "PENDING"), ("paid", "PROCESSING"), ("completed", "SHIPPED"),
   ("canceled", "CANCELLED")]

/-- The Shopify statusMap object literal (the identifier key null becomes
the property name "null"). -/
def shopifyStatusMap : List (String × String) :=
  [("null", "PENDING"), ("pending", "PENDING"), ("fulfilled", "SHIPPED"),
   ("partial", "PROCESSING")]

/-- The WooCommerce statusMap object literal. -/
def wooStatusMap : List (String × String) :=
  [("pending", "PENDING"), ("processing", "PROCESSING"),
   ("on-hold", "PENDING"), ("completed", "DELIVERED"),
   ("cancelled", "CANCELLED"), ("refunded", "REFUNDED"),
   ("failed", "CANCELLED")]

/-- The Google statusMap object literal. -/
def googleStatusMap : List (String × String) :=
  [("active", "PROCESSING"), ("shipped", "SHIPPED"),
   ("delivered", "DELIVERED"), ("canceled", "CANCELLED"),
   ("returned", "REFUNDED")]

/-- Keys of the eBay lookup table. -/
def ebayStatusKeys : List String := ebayStatusMap.map Prod.fst

/-- Keys of the Amazon lookup table. -/
def amazonStatusKeys : List String := amazonStatusMap.map Prod.fst

/-- Keys of the Etsy lookup table. -/
def etsyStatusKeys : List String := etsyStatusMap.map Prod.fst

/-- Keys of the Shopify lookup table. -/
def shopifyStatusKeys : List String := shopifyStatusMap.map Prod.fst

/-- Keys of the WooCommerce lookup table. -/
def wooStatusKeys : List String := wooStatusMap.map Prod.fst

/-- Keys of the Google lookup table. -/
def googleStatusKeys : List String := googleStatusMap.map Prod.fst

/-- OrderSyncEngine.normalizeEbayStatus: statusMap[status] or "PENDING". -/
def normalizeEbayStatus (status : String) : JSValue :=
  jsOr (jsLookup ebayStatusMap status) (.str "PENDING")

/-- OrderSyncEngine.normalizeAmazonStatus. -/
def normalizeAmazonStatus (status : String) : JSValue :=
  jsOr (jsLookup amazonStatusMap status) (.str "PENDING")

/-- OrderSyncEngine.normalizeEtsyStatus. -/
def normalizeEtsyStatus (status : String) : JSValue :=
  jsOr (jsLookup etsyStatusMap status) (.str "PENDING")

/-- OrderSyncEngine.normalizeShopifyStatus: a null (or empty, hence falsy)
fulfillment_status returns PENDING before the table lookup. -/
def normalizeShopifyStatus (status : Option String) : JSValue :=
  match status with
  | none => .str "PENDING"
  | some s =>
    if s = "" then .str "PENDING"
    else jsOr (jsLookup shopifyStatusMap s) (.str "PENDING")

/-- OrderSyncEngine.normalizeWooStatus. -/
def normalizeWooStatus (status : String) : JSValue :=
  jsOr (jsLookup wooStatusMap status) (.str "PENDING")

/-- OrderSyncEngine.normalizeGoogleStatus. -/
def normalizeGoogleStatus (status : String) : JSValue :=
  jsOr (jsLookup googleStatusMap status) (.str "PENDING")

/-! ## Oversell correction pass (emma-marketing-specialist.ts, preventOverselling) -/

/-- A PlatformListing row as seen by the oversell pass: only its id and
quantity matter there; quantity is read through the `or 0` guard. -/
structure OversellListing where
  id : Nat
  quantity : Option Int
deriving DecidableEq, Repr

/-- A Product together with its platformListings, as fetched by
preventOverselling (userId/ACTIVE filtering already applied). -/
structure OversellProduct where
  quantity : Int
  listings : List OversellListing
deriving DecidableEq, Repr

/-- The reduce in preventOverselling: sum of listing quantities, null read
as 0. -/
def totalListed (p : OversellProduct) : Int :=
  p.listings.foldl (fun s l => s + l.quantity.getD 0) 0

/-- One product step of preventOverselling: if the listed total exceeds the
canonical quantity, every listing is set to
Math.floor(quantity / listings.length). Int.fdiv is floor division, matching
Math.floor of the real-number quotient; the divisor is zero only when the
listings list is empty, in which case the value is never used. -/
def adjustProduct (p : OversellProduct) : OversellProduct :=
  if totalListed p > p.quantity then
    let adjustedQuantity := Int.fdiv p.quantity p.listings.length
    { p with listings := p.listings.map (fun l => { l with quantity := some adjustedQuantity }) }
  else p

/-- The whole correction pass over the fetched products. -/
def preventOverselling (ps : List OversellProduct) : List OversellProduct :=
  ps.map adjustProduct

/-! ## Job queue retry/backoff (part_002, Bull queue configuration) -/

/-- The per-queue options object passed to the Bull constructor. -/
structure QueueOptions where
  attempts : Nat
  backoffDelay : Nat
  removeOnComplete : Nat
  removeOnFail : Nat
deriving DecidableEq, Repr

/-- productSyncQueue defaultJobOptions. -/
def productSyncQueueOpts : QueueOptions :=
  { attempts := 3, backoffDelay := 2000, removeOnComplete := 100, removeOnFail := 50 }

/-- orderSyncQueue defaultJobOptions. -/
def orderSyncQueueOpts : QueueOptions :=
  { attempts := 3, backoffDelay := 2000, removeOnComplete := 100, removeOnFail := 50 }

/-- inventorySyncQueue defaultJobOptions. -/
def inventorySyncQueueOpts : QueueOptions :=
  { attempts := 3, backoffDelay := 2000, removeOnComplete := 100, removeOnFail := 50 }

/-- webhookQueue defaultJobOptions. -/
def webhookQueueOpts : QueueOptions :=
  { attempts := 5, backoffDelay := 1000, removeOnComplete := 200, removeOnFail := 100 }

/-- Lifecycle states of a Bull job, as far as retry semantics are concerned. -/
inductive JobStatus where
  | waiting
  | delayed (wait : Nat)
  | failed
  | completed
deriving DecidableEq, Repr

/-- A Bull job as the retry machinery sees it. -/
structure JobState where
  attemptsMade : Nat
  status : JobStatus
deriving DecidableEq, Repr

/-- Modelled from Bull's documented builtin exponential backoff strategy:
the delay after attemptsMade failed attempts is
round((2 ^ attemptsMade - 1) * delay). -/
def bullExponentialBackoff (delay attemptsMade : Nat) : Nat :=
  (2 ^ attemptsMade - 1) * delay

/-- Modelled from Bull's documented retry contract, specialized to a handler
that always fails: a runnable job's attempt increments attemptsMade; while
attemptsMade is below the configured attempts ceiling the job is requeued
with the exponential backoff delay, otherwise it is moved to the failed set
and kept there; failed jobs are never picked up again. -/
def stepFailing (opts : QueueOptions) (j : JobState) : JobState :=
  match j.status with
  | .waiting | .delayed _ =>
    let made := j.attemptsMade + 1
    if made < opts.attempts then
      { attemptsMade := made, status := .delayed (bullExponentialBackoff opts.backoffDelay made) }
    else
      { attemptsMade := made, status := .failed }
  | _ => j

/-- The job after n scheduler rounds, starting from a freshly enqueued job. -/
def runFailing (opts : QueueOptions) : Nat → JobState
  | 0 => { attemptsMade := 0, status := .waiting }
  | n + 1 => stepFailing opts (runFailing opts n)

/-! ## Webhook ingestion (src/app/api/webhooks/[platform]/route.ts, POST) -/

/-- JavaScript truthiness of an optional string value, as used by the
handler's `if (header)` and `value or fallback` patterns: a missing value
and the empty string are both falsy. -/
def truthy : Option String → Bool
  | none => false
  | some s => s ≠ ""

/-- `value or "unknown"` on an optional string. -/
def orUnknown (o : Option String) : String :=
  if truthy o then o.getD "" else "unknown"

/-- The headers and parsed-payload fields the POST handler reads. JSON.parse
is modelled structurally: each payload path the handler dereferences is a
field (absent when the payload lacks it, e.g. when the body was not JSON). -/
structure WebhookReq where
  body : String
  shopifyHmac : Option String
  ebaySignature : Option String
  amazonSignature : Option String
  wooSignature : Option String
  shopifyTopic : Option String
  shopifyShopDomain : Option String
  wooEvent : Option String
  challengeCode : Option String
  payloadEventType : Option String
  ebayTopic : Option String
  amazonNotificationType : Option String
  hasMessage : Bool
  googleEventType : Option String
deriving DecidableEq, Repr

/-- The webhook secrets resolved from process.env at the top of the
verification functions (the Shopify fallback chain is already applied);
WOOCOMMERCE_WEBHOOK_SECRET may be unset. -/
structure WebhookEnv where
  shopifySecret : String
  ebaySecret : String
  amazonSecret : String
  wooSecret : Option String
deriving DecidableEq, Repr

/-- A PlatformConnection row as read by the handler's tenant resolution
(platform, metadata.shop, userId). -/
structure ConnRow where
  platform : Platform
  shop : Option String
  userId : String
deriving DecidableEq, Repr

/-- A job enqueued on the webhook-processing queue. -/
structure WebhookJob where
  platform : Platform
  event : String
  userId : String
deriving DecidableEq, Repr

/-- What a single POST invocation produces: the HTTP status, the enqueued
webhook-processing jobs, and the canonical store as the handler leaves it
(the handler has no write path to the store; it only reads
platformConnection rows). -/
structure WebhookOutcome where
  status : Nat
  enqueued : List WebhookJob
  store : List ConnRow
deriving DecidableEq, Repr

/-- The isValid computation of the first switch of the POST handler, for the
paths that fall through to the `if (!isValid)` check (the eBay
challenge-response early return is handled by the caller). hmacB64 and
hmacHex stand for crypto.createHmac sha256 digests in base64 and hex;
verification compares the recomputed digest with the header. -/
def webhookIsValid (hmacB64 hmacHex : String → String → String)
    (env : WebhookEnv) (req : WebhookReq) (p : Platform) : Bool :=
  match p with
  | .SHOPIFY =>
    if truthy req.shopifyHmac then
      hmacB64 env.shopifySecret req.body == req.shopifyHmac.getD ""
    else true
  | .EBAY =>
    if truthy req.ebaySignature then
      hmacHex env.ebaySecret req.body == req.ebaySignature.getD ""
    else true
  | .AMAZON =>
    if truthy req.amazonSignature then
      hmacB64 env.amazonSecret req.body == req.amazonSignature.getD ""
    else true
  | .ETSY => truthy req.payloadEventType
  | .WOOCOMMERCE =>
    if truthy req.wooSignature && truthy env.wooSecret then
      hmacB64 (env.wooSecret.getD "") req.body == req.wooSignature.getD ""
    else true
  | .GOOGLE_SHOPPING => true

/-- The second switch of the POST handler: extract the canonical event type
and resolve the owning tenant. Only Shopify resolves a tenant (findFirst on
platform = SHOPIFY and metadata.shop); the other branches leave userId
empty. -/
def webhookEventUser (conns : List ConnRow) (req : WebhookReq) (p : Platform) :
    String × String :=
  match p with
  | .SHOPIFY =>
    let event := orUnknown req.shopifyTopic
    let userId :=
      if truthy req.shopifyShopDomain then
        match conns.find? (fun c =>
            decide (c.platform = Platform.SHOPIFY ∧ c.shop = req.shopifyShopDomain)) with
        | some c => if c.userId = "" then "" else c.userId
        | none => ""
      else ""
    (event, userId)
  | .EBAY => (orUnknown req.ebayTopic, "")
  | .AMAZON => (orUnknown req.amazonNotificationType, "")
  | .ETSY => (orUnknown req.payloadEventType, "")
  | .WOOCOMMERCE => (orUnknown req.wooEvent, "")
  | .GOOGLE_SHOPPING => (orUnknown req.googleEventType, "")

/-- The POST handler for a platform in the enum: eBay challenge-response
early return, then signature verification (401 and stop on failure), then
event extraction, tenant resolution and conditional enqueue, then the 200
acknowledgement. -/
def webhooksPOST (hmacB64 hmacHex : String → String → String)
    (env : WebhookEnv) (conns : List ConnRow) (req : WebhookReq)
    (p : Platform) : WebhookOutcome :=
  if p = Platform.EBAY ∧ truthy req.challengeCode then
    { status := 200, enqueued := [], store := conns }
  else if webhookIsValid hmacB64 hmacHex env req p then
    let (event, userId) := webhookEventUser conns req p
    { status := 200,
      enqueued := if userId = "" then [] else [{ platform := p, event := event, userId := userId }],
      store := conns }
  else
    { status := 401, enqueued := [], store := conns }

/-- params.platform.toUpperCase() matched against the Platform enum; the
switch default returns 400 for anything else. -/
def parsePlatform (s : String) : Option Platform :=
  if s.toUpper = "SHOPIFY" then some .SHOPIFY
  else if s.toUpper = "EBAY" then some .EBAY
  else if s.toUpper = "AMAZON" then some .AMAZON
  else if s.toUpper = "ETSY" then some .ETSY
  else if s.toUpper = "WOOCOMMERCE" then some .WOOCOMMERCE
  else if s.toUpper = "GOOGLE_SHOPPING" then some .GOOGLE_SHOPPING
  else none

/-- The full route: unsupported platform strings answer 400 without any
processing. -/
def webhooksRoute (hmacB64 hmacHex : String → String → String)
    (env : WebhookEnv) (conns : List ConnRow) (req : WebhookReq)
    (platformStr : String) : WebhookOutcome :=
  match parsePlatform platformStr with
  | some p => webhooksPOST hmacB64 hmacHex env conns req p
  | none => { status := 400, enqueued := [], store := conns }

/-! ## Credential encryption (part_009: encrypt / decrypt over aes-256-gcm)

Bytes are naturals below 256; the stored ciphertext is the character list
of the `iv:authTag:encrypted` hex string. Node's Buffer hex codec and the
GCM tag acceptance rules of crypto.createDecipheriv / setAuthTag are
modelled from their documented behavior; the AES-GCM keystream and GHASH
tag themselves are abstracted into an AEAD record, since their values are
irrelevant to the wrapper's control flow. -/

/-- Lower-case hex digit of a value below 16. -/
def hexDigitChar (n : Nat) : Char :=
  if n < 10 then Char.ofNat (48 + n) else Char.ofNat (87 + n)

/-- Two-character hex rendering of one byte. -/
def byteToHexPair (b : Nat) : List Char :=
  [hexDigitChar (b / 16), hexDigitChar (b % 16)]

/-- Buffer.toString of a byte buffer in hex. -/
def hexEncode (bs : List Nat) : List Char :=
  bs.foldr (fun b acc => byteToHexPair b ++ acc) []

/-- Value of a hex digit character, none for anything else. -/
def hexDigitVal? (c : Char) : Option Nat :=
  if decide (48 ≤ c.toNat ∧ c.toNat ≤ 57) then some (c.toNat - 48)
  else if decide (97 ≤ c.toNat ∧ c.toNat ≤ 102) then some (c.toNat - 87)
  else if decide (65 ≤ c.toNat ∧ c.toNat ≤ 70) then some (c.toNat - 55)
  else none

/-- Buffer.from(string, hex) as documented by Node: bytes are decoded pair
by pair, and decoding stops (truncating the buffer) at the first pair that
is not two hex digits, including a dangling final character. -/
def hexDecodeNode : List Char → List Nat
  | c1 :: c2 :: rest =>
    match hexDigitVal? c1, hexDigitVal? c2 with
    | some hi, some lo => (16 * hi + lo) :: hexDecodeNode rest
    | _, _ => []
  | _ => []

/-- Splitting a character list on a colon, as string.split does. -/
def splitColonAux : List Char → List Char → List (List Char)
  | [], acc => [acc.reverse]
  | c :: rest, acc =>
    if c = ':' then acc.reverse :: splitColonAux rest []
    else splitColonAux rest (c :: acc)

/-- encryptedData.split of the decrypt function. -/
def splitColon (cs : List Char) : List (List Char) :=
  splitColonAux cs []

/-- The AES-256-GCM primitive as node crypto exposes it to this wrapper:
a keystream encryption, its inverse, and the 16-byte authentication tag
recomputed from key, iv and ciphertext. The wrapper never looks inside
these functions. -/
structure AEAD where
  encBytes : List Nat → List Nat → List Nat → List Nat
  decBytes : List Nat → List Nat → List Nat → List Nat
  tagOf : List Nat → List Nat → List Nat → List Nat

/-- Node's IsValidGCMTagLength: without an explicit authTagLength option,
decipher.setAuthTag accepts GCM tags of 4, 8 and 12 to 16 bytes. -/
def validGCMTagLength (n : Nat) : Bool :=
  n = 4 || n = 8 || (12 ≤ n && n ≤ 16)

/-- part_009 encrypt: with the random 16-byte iv passed explicitly, the
stored value is the hex iv, hex auth tag and hex ciphertext joined by
colons; the tag is computed over the ciphertext produced by the cipher. -/
def encrypt (A : AEAD) (key iv pt : List Nat) : List Char :=
  hexEncode iv ++
    ':' :: hexEncode (A.tagOf key iv (A.encBytes key iv pt)) ++
    ':' :: hexEncode (A.encBytes key iv pt)

/-- The three-part body of decrypt, after the split succeeded: hex decode
iv, tag and ciphertext with Node truncation semantics, then run the GCM
decipher: createDecipheriv rejects an empty iv, setAuthTag rejects invalid
tag lengths, and final compares the supplied tag against the prefix of the
recomputed tag of the same length. Every failure is caught and rethrown as
the single generic error. -/
def decryptParts (A : AEAD) (key : List Nat) (ivH tagH ctH : List Char) :
    Except String (List Nat) :=
  if (hexDecodeNode ivH).length = 0 then .error "Failed to decrypt data"
  else if validGCMTagLength (hexDecodeNode tagH).length
      && decide (hexDecodeNode tagH =
        (A.tagOf key (hexDecodeNode ivH) (hexDecodeNode ctH)).take
          (hexDecodeNode tagH).length) then
    .ok (A.decBytes key (hexDecodeNode ivH) (hexDecodeNode ctH))
  else .error "Failed to decrypt data"

/-- part_009 decrypt: anything but three colon-separated parts is rejected
before the decipher runs. -/
def decrypt (A : AEAD) (key : List Nat) (s : List Char) :
    Except String (List Nat) :=
  match splitColon s with
  | [ivH, tagH, ctH] => decryptParts A key ivH tagH ctH
  | _ => .error "Failed to decrypt data"

/-- A concrete AEAD instance satisfying the primitive's functional
contract, used to instantiate theorems at concrete inputs. -/
def toyAEAD : AEAD where
  encBytes := fun _ _ pt => pt.map (fun b => (b + 1) % 256)
  decBytes := fun _ _ ct => ct.map (fun b => (b + 255) % 256)
  tagOf := fun key iv ct =>
    (List.range 16).map (fun i => (key.sum + iv.sum + ct.sum + i) % 256)

/-- A concrete 32-byte key for instantiations. -/
def toyKey : List Nat := List.replicate 32 7

/-- A concrete 16-byte iv for instantiations. -/
def toyIv : List Nat := List.replicate 16 1

/-- A concrete plaintext (the bytes of a short token) for instantiations. -/
def toyPt : List Nat := [65, 66, 67]

/-! ## Order import (OrderSyncEngine.saveOrder in inventory-sync.ts part two) -/

/-- An OrderItem row (sku, title, quantity, price, platformItemId), exactly
the fields saveOrder creates. -/
structure OrderItemRow where
  sku : String
  title : String
  quantity : Int
  price : Int
  platformItemId : Option String
deriving DecidableEq, Repr

/-- An Order row of the canonical store. Monetary totals pass through
saveOrder unchanged, so their numeric type is irrelevant and Int is used;
ids are modelled as naturals issued in insertion order, which preserves the
only property the code uses (uniqueness). -/
structure OrderRow where
  id : Nat
  userId : String
  platform : Platform
  platformOrderId : String
  status : String
  customerName : String
  customerEmail : Option String
  shippingAddress : String
  total : Int
  currency : String
  orderDate : Int
  items : List OrderItemRow
deriving DecidableEq, Repr

/-- The normalized order shape handed to saveOrder by the per-platform
fetch functions. -/
structure OrderData where
  platformOrderId : String
  status : String
  customerName : String
  customerEmail : Option String
  shippingAddress : String
  total : Int
  currency : Option String
  orderDate : Int
  items : List OrderItemRow
deriving DecidableEq, Repr

/-- The Prisma findUnique selector userId_platformOrderId used by
saveOrder: the platform is not part of the key. -/
def orderKeyMatch (u poid : String) (o : OrderRow) : Bool :=
  decide (o.userId = u ∧ o.platformOrderId = poid)

/-- The update branch of saveOrder: only status, total and shippingAddress
of the found row are written. -/
def refreshOrder (d : OrderData) (o : OrderRow) : OrderRow :=
  { o with status := d.status, total := d.total,
           shippingAddress := d.shippingAddress }

/-- The create branch of saveOrder: the full order graph, currency
defaulting to USD, one OrderItem per normalized item. -/
def newOrderRow (u : String) (p : Platform) (d : OrderData) (id : Nat) :
    OrderRow :=
  { id := id, userId := u, platform := p,
    platformOrderId := d.platformOrderId, status := d.status,
    customerName := d.customerName, customerEmail := d.customerEmail,
    shippingAddress := d.shippingAddress, total := d.total,
    currency := d.currency.getD "USD", orderDate := d.orderDate,
    items := d.items }

/-- OrderSyncEngine.saveOrder: look the order up by (userId,
platformOrderId); when found, update only status, total and
shippingAddress of that row; otherwise create the full order graph. -/
def saveOrder (u : String) (p : Platform) (d : OrderData)
    (db : List OrderRow) : List OrderRow :=
  match db.find? (orderKeyMatch u d.platformOrderId) with
  | some existing =>
    db.map (fun o => if o.id = existing.id then refreshOrder d o else o)
  | none => db ++ [newOrderRow u p d db.length]

/-- Follows the spec's words, for comparison with saveOrder: the same
upsert but keyed by (tenant, platform, platformOrderId) as the claim
states. -/
def saveOrderClaimKey (u : String) (p : Platform) (d : OrderData)
    (db : List OrderRow) : List OrderRow :=
  match db.find? (fun o =>
      decide (o.userId = u ∧ o.platform = p ∧
        o.platformOrderId = d.platformOrderId)) with
  | some existing =>
    db.map (fun o => if o.id = existing.id then refreshOrder d o else o)
  | none => db ++ [newOrderRow u p d db.length]

/-- A concrete normalized order used to instantiate the order-import
theorems. -/
def sampleOrderData : OrderData :=
  { platformOrderId := "100", status := "PENDING", customerName := "Ann",
    customerEmail := some "a\x40example.com", shippingAddress := "1 Main St",
    total := 50, currency := none, orderDate := 1700000000,
    items := [{ sku := "SKU-1", title := "Widget", quantity := 2, price := 25,
                platformItemId := some "li-1" }] }

/-! ## Product sync (src/lib/sync/product-sync.ts) -/

/-- A PlatformListing row with the fields syncToSinglePlatform touches. -/
structure ListingRow where
  productId : String
  platform : Platform
  platformProductId : String
  price : Int
  quantity : Int
  status : String
  syncErrors : Option String
deriving DecidableEq, Repr

/-- The (productId, platform) unique pair of the PlatformListing table. -/
def listingKeyMatch (pid : String) (p : Platform) (l : ListingRow) : Bool :=
  decide (l.productId = pid ∧ l.platform = p)

/-- prisma.platformListing.upsert on the productId_platform unique key:
update the matching row through upd, or append mk when none matches. upd is
always a field update that keeps productId and platform, so row keys are
preserved. -/
def upsertListing (pid : String) (p : Platform)
    (upd : ListingRow → ListingRow) (mk : ListingRow)
    (db : List ListingRow) : List ListingRow :=
  match db.find? (listingKeyMatch pid p) with
  | some _ => db.map (fun l => if listingKeyMatch pid p l then upd l else l)
  | none => db ++ [mk]

/-- Reading one listing by its unique key. -/
def getListing (pid : String) (p : Platform) (db : List ListingRow) :
    Option ListingRow :=
  db.find? (listingKeyMatch pid p)

/-- The product loaded at the top of syncProduct (with its listings
snapshot, which only feeds the adapter calls abstracted into the call
parameter). -/
structure ProductS where
  id : String
  price : Int
  quantity : Int
deriving DecidableEq, Repr

/-- One entry of the per-platform result list. -/
structure ProductSyncResult where
  platform : Platform
  success : Bool
  platformProductId : Option String
  error : Option String
deriving DecidableEq, Repr

/-- The success entry pushed by syncProduct's loop. -/
def syncOkResult (p : Platform) (pid : String) : ProductSyncResult :=
  { platform := p, success := true, platformProductId := some pid,
    error := none }

/-- The failure entry pushed by syncProduct's catch (or the
not-connected early return). -/
def syncFailResult (p : Platform) (e : String) : ProductSyncResult :=
  { platform := p, success := false, platformProductId := none,
    error := some e }

/-- The listing state written on success: new platform id, synced
price/quantity snapshot, active status, cleared syncErrors (identical in
the upsert's update and create branches, productId/platform being the
key). -/
def syncSuccessRow (prod : ProductS) (p : Platform) (pid : String) :
    ListingRow :=
  { productId := prod.id, platform := p, platformProductId := pid,
    price := prod.price, quantity := prod.quantity, status := "active",
    syncErrors := none }

/-- The placeholder listing created when the adapter call failed and no
listing existed yet. -/
def syncErrorRow (prod : ProductS) (p : Platform) (e : String) :
    ListingRow :=
  { productId := prod.id, platform := p, platformProductId := "error",
    price := prod.price, quantity := prod.quantity, status := "error",
    syncErrors := some e }

/-- ProductSyncEngine.syncToSinglePlatform: a missing connection reports
failure without touching the store; otherwise the platform-specific
create/update call (abstracted into call, an Except of the thrown message
or the returned platform product id) either succeeds, upserting the listing
with the new id, synced price/quantity, active status and cleared
syncErrors, or throws, in which case the error is recorded on the listing
(update touches only syncErrors; create writes an error placeholder row)
and the rethrown error is caught by the caller's loop, which reports the
failure for this platform. -/
def syncToSinglePlatform (conn : Platform → Bool)
    (call : Platform → Except String String) (prod : ProductS)
    (p : Platform) (db : List ListingRow) :
    ProductSyncResult × List ListingRow :=
  if conn p = false then
    (syncFailResult p "Platform not connected", db)
  else
    match call p with
    | .ok pid =>
      (syncOkResult p pid,
       upsertListing prod.id p
         (fun l => { l with platformProductId := pid, price := prod.price, quantity := prod.quantity, status := "active", syncErrors := none })
         (syncSuccessRow prod p pid) db)
    | .error e =>
      (syncFailResult p e,
       upsertListing prod.id p
         (fun l => { l with syncErrors := some e })
         (syncErrorRow prod p e) db)

/-- One iteration of syncProduct's loop: run the platform, push its result
(success or caught failure) and carry the listing store forward. -/
def syncStep (conn : Platform → Bool)
    (call : Platform → Except String String) (prod : ProductS)
    (acc : List ProductSyncResult × List ListingRow) (p : Platform) :
    List ProductSyncResult × List ListingRow :=
  (acc.1 ++ [(syncToSinglePlatform conn call prod p acc.2).1],
   (syncToSinglePlatform conn call prod p acc.2).2)

/-- ProductSyncEngine.syncProduct: loop over the target platforms, each
iteration wrapped in try/catch so that one platform's failure never stops
the others; results accumulate in order. -/
def syncProduct (conn : Platform → Bool)
    (call : Platform → Except String String) (prod : ProductS)
    (platforms : List Platform) (db : List ListingRow) :
    List ProductSyncResult × List ListingRow :=
  platforms.foldl (syncStep conn call prod) ([], db)

/-! ## Product creation (src/app/api/products/route.ts, POST) -/

/-- A Product row with the fields the creation route writes. -/
structure ProductRow where
  userId : String
  sku : String
  title : String
  price : Int
  quantity : Int
deriving DecidableEq, Repr

/-- The validated request body of the creation route. -/
structure ProductCreateData where
  sku : String
  title : String
  price : Int
  quantity : Int
deriving DecidableEq, Repr

/-- POST /api/products after validation: findUnique on the globally unique
sku; a hit answers 400 and performs no write, otherwise the product is
created for the authenticated user (201). -/
def productsPOST (userId : String) (d : ProductCreateData)
    (db : List ProductRow) : Nat × List ProductRow :=
  match db.find? (fun pr => pr.sku == d.sku) with
  | some _ => (400, db)
  | none =>
    (201, db ++ [{ userId := userId, sku := d.sku, title := d.title,
                   price := d.price, quantity := d.quantity }])

/-! ## Sync coordinator (src/lib/sync/coordinator.ts, syncAllUsersOrders) -/

/-- The PlatformConnection status enum. -/
inductive ConnectionStatus where
  | ACTIVE
  | DISCONNECTED
  | ERROR
deriving DecidableEq, Repr

/-- A platformConnection row as the coordinator's user include returns it. -/
structure CoordConn where
  platform : Platform
  status : ConnectionStatus
deriving DecidableEq, Repr

/-- A user row with the included platformConnections. -/
structure CoordUser where
  id : String
  platformConnections : List CoordConn
deriving DecidableEq, Repr

/-- An order-sync job as queueOrderSync receives it. -/
structure OrderSyncJob where
  userId : String
  platforms : List Platform
  startDate : Int
deriving DecidableEq, Repr

/-- SyncCoordinator.syncAllUsersOrders: for every user, skip when the
included platformConnections list is empty, otherwise enqueue one
order-sync job over all of that user's connections with startDate set 24
hours before now (milliseconds). -/
def syncAllUsersOrders (now : Int) (users : List CoordUser) :
    List OrderSyncJob :=
  (users.filter (fun u => u.platformConnections.length ≠ 0)).map
    (fun u =>
      { userId := u.id,
        platforms := u.platformConnections.map (·.platform),
        startDate := now - 24 * 60 * 60 * 1000 })

/-- Follows the spec's words, for comparison with syncAllUsersOrders: jobs
only for tenants holding at least one connection whose status is ACTIVE. -/
def syncAllUsersOrdersClaim (now : Int) (users : List CoordUser) :
    List OrderSyncJob :=
  (users.filter (fun u =>
      u.platformConnections.any (fun c => c.status == ConnectionStatus.ACTIVE))).map
    (fun u =>
      { userId := u.id,
        platforms := u.platformConnections.map (·.platform),
        startDate := now - 24 * 60 * 60 * 1000 })

/-! ## Fixtures used to instantiate theorems at concrete inputs -/

/-- A second normalized order for the same remote order id, as a
later re-import of the same order would produce after fulfillment. -/
def sampleOrderData2 : OrderData :=
  { sampleOrderData with status := "SHIPPED", total := 60,
                         shippingAddress := "2 Oak Ave" }

/-- A concrete stand-in for an HMAC digest function. -/
def sampleHmac : String → String → String :=
  fun secret body => secret ++ "." ++ body

/-- Concrete webhook secrets. -/
def sampleEnv : WebhookEnv :=
  { shopifySecret := "shsec", ebaySecret := "ebsec", amazonSecret := "amsec",
    wooSecret := none }

/-- One Shopify connection whose shop metadata resolves to user-1. -/
def sampleConns : List ConnRow :=
  [{ platform := .SHOPIFY, shop := some "shop.example", userId := "user-1" }]

/-- A request carrying nothing at all. -/
def emptyWebhookReq : WebhookReq :=
  { body := "", shopifyHmac := none, ebaySignature := none,
    amazonSignature := none, wooSignature := none, shopifyTopic := none,
    shopifyShopDomain := none, wooEvent := none, challengeCode := none,
    payloadEventType := none, ebayTopic := none,
    amazonNotificationType := none, hasMessage := false,
    googleEventType := none }

/-- A Shopify webhook whose HMAC header does not match the recomputed
digest. -/
def badSigShopifyReq : WebhookReq :=
  { emptyWebhookReq with body := "payload", shopifyHmac := some "bad" }

/-- A Shopify webhook with no signature header at all, carrying a topic and
a shop domain that resolves against sampleConns. -/
def noHeaderShopifyReq : WebhookReq :=
  { emptyWebhookReq with body := "payload",
                         shopifyTopic := some "orders/create",
                         shopifyShopDomain := some "shop.example" }

/-- Every platform connected, for product-sync instantiations. -/
def sampleConnAll : Platform → Bool := fun _ => true

/-- Adapter calls that throw for eBay and succeed elsewhere. -/
def sampleCall : Platform → Except String String :=
  fun p => if p = Platform.EBAY then .error "boom" else .ok "pid-9"

/-- The platform product id returned by the successful sampleCall paths. -/
def samplePidOf : Platform → String := fun _ => "pid-9"

/-- A concrete product for product-sync instantiations. -/
def sampleProd : ProductS := { id := "prod-1", price := 10, quantity := 5 }

/-- The spec's worked oversell example: quantity 10, three listings
summing to 30. -/
def sampleOversell : OversellProduct :=
  { quantity := 10,
    listings := [{ id := 1, quantity := some 10 },
                 { id := 2, quantity := some 10 },
                 { id := 3, quantity := some 10 }] }

/-- A tenant whose only connection is disconnected. -/
def coordDisconnected : CoordUser :=
  { id := "u1", platformConnections :=
      [{ platform := .SHOPIFY, status := .DISCONNECTED }] }

/-- A tenant with no connections at all. -/
def coordNoConns : CoordUser := { id := "u2", platformConnections := [] }

/-- A concrete tenant list for coordinator instantiations. -/
def coordUsersSample : List CoordUser := [coordDisconnected, coordNoConns]

/-! # Helper lemmas -/

theorem find?_append_of_none {α} (p : α → Bool) (l₁ l₂ : List α)
    (h : l₁.find? p = none) : (l₁ ++ l₂).find? p = l₂.find? p := by
  induction l₁ with
  | nil => rfl
  | cons x xs ih =>
    rw [List.find?_cons] at h
    cases hx : p x with
    | true => rw [hx] at h; exact absurd h (by simp)
    | false =>
      rw [hx] at h
      rw [List.cons_append, List.find?_cons, hx]
      exact ih h

theorem find?_map_ite_self {α} (q : α → Bool) (upd : α → α)
    (hq : ∀ x, q (upd x) = q x) (l : List α) (x : α)
    (h : l.find? q = some x) :
    (l.map (fun y => if q y then upd y else y)).find? q = some (upd x) := by
  induction l with
  | nil => simp at h
  | cons y ys ih =>
    by_cases hy : q y = true
    · rw [List.find?_cons_of_pos _ hy] at h
      injection h with h
      subst h
      rw [List.map_cons, if_pos hy]
      exact List.find?_cons_of_pos _ (by rw [hq]; exact hy)
    · rw [List.find?_cons_of_neg _ hy] at h
      rw [List.map_cons, if_neg hy]
      rw [List.find?_cons_of_neg _ hy]
      exact ih h

theorem find?_map_ite_other {α} (q q2 : α → Bool) (upd : α → α)
    (hq : ∀ x, q2 (upd x) = q2 x)
    (hdisj : ∀ x, q x = true → q2 x = false) (l : List α) :
    (l.map (fun y => if q y then upd y else y)).find? q2 = l.find? q2 := by
  induction l with
  | nil => rfl
  | cons y ys ih =>
    by_cases hy : q y = true
    · have h2 : ¬ q2 y = true := by rw [hdisj y hy]; simp
      rw [List.map_cons, if_pos hy]
      rw [List.find?_cons_of_neg _ (by rw [hq]; exact h2)]
      rw [List.find?_cons_of_neg _ h2]
      exact ih
    · rw [List.map_cons, if_neg hy]
      by_cases h2 : q2 y = true
      · rw [List.find?_cons_of_pos _ h2, List.find?_cons_of_pos _ h2]
      · rw [List.find?_cons_of_neg _ h2, List.find?_cons_of_neg _ h2]
        exact ih

theorem foldl_add_getD (ls : List OversellListing) (init : Int) :
    ls.foldl (fun s l => s + l.quantity.getD 0) init =
      init + (ls.map (fun l => l.quantity.getD 0)).sum := by
  induction ls generalizing init with
  | nil => simp
  | cons l ls ih =>
    simp only [List.foldl_cons, List.map_cons, List.sum_cons, ih]
    ring

theorem totalListed_eq_sum (p : OversellProduct) :
    totalListed p = (p.listings.map (fun l => l.quantity.getD 0)).sum := by
  unfold totalListed
  rw [foldl_add_getD]
  ring

theorem mul_fdiv_le (q : Int) (n : Nat) (hn : n ≠ 0) :
    (n : Int) * Int.fdiv q n ≤ q := by
  have hnn : (0 : Int) ≤ (n : Int) := Int.ofNat_nonneg n
  rw [Int.fdiv_eq_ediv q hnn, mul_comm]
  exact Int.ediv_mul_le q (by exact_mod_cast hn)

theorem adjustProduct_of_not_over (p : OversellProduct)
    (h : ¬ totalListed p > p.quantity) : adjustProduct p = p := by
  unfold adjustProduct
  rw [if_neg h]

theorem adjustProduct_of_over (p : OversellProduct)
    (h : totalListed p > p.quantity) :
    adjustProduct p =
      { p with listings := p.listings.map (fun l =>
          { l with quantity := some (Int.fdiv p.quantity p.listings.length) }) } := by
  unfold adjustProduct
  rw [if_pos h]

theorem totalListed_adjusted (p : OversellProduct)
    (h : totalListed p > p.quantity) :
    totalListed (adjustProduct p) =
      (p.listings.length : Int) * Int.fdiv p.quantity p.listings.length := by
  rw [adjustProduct_of_over p h, totalListed_eq_sum]
  simp only [List.map_map, Function.comp_def]
  have hconst : p.listings.map
      (fun l => (({ l with quantity := some (Int.fdiv p.quantity p.listings.length) } : OversellListing)).quantity.getD 0) =
      p.listings.map (fun _ => Int.fdiv p.quantity p.listings.length) := by
    apply List.map_congr_left
    intro l _
    rfl
  rw [hconst, List.map_const', List.sum_replicate, nsmul_eq_mul]

theorem adjustProduct_quantity (p : OversellProduct) :
    (adjustProduct p).quantity = p.quantity := by
  by_cases h : totalListed p > p.quantity
  · rw [adjustProduct_of_over p h]
  · rw [adjustProduct_of_not_over p h]

theorem adjustProduct_idem (p : OversellProduct) :
    adjustProduct (adjustProduct p) = adjustProduct p := by
  by_cases h : totalListed p > p.quantity
  · rcases hl : p.listings with _ | ⟨l0, ls⟩
    · have hp : adjustProduct p = p := by
        rw [adjustProduct_of_over p h]
        obtain ⟨q, ls⟩ := p
        simp only at hl
        subst hl
        rfl
      rw [hp, hp]
    · have hlen : p.listings.length ≠ 0 := by rw [hl]; simp
      have hle : totalListed (adjustProduct p) ≤ p.quantity := by
        rw [totalListed_adjusted p h]
        exact mul_fdiv_le p.quantity p.listings.length hlen
      have hno : ¬ totalListed (adjustProduct p) > (adjustProduct p).quantity := by
        rw [adjustProduct_quantity]
        exact not_lt.mpr hle
      exact adjustProduct_of_not_over _ hno
  · have hp : adjustProduct p = p := adjustProduct_of_not_over p h
    rw [hp, hp]

/-! # Claim theorems -/

theorem jsLookup_not_found (entries : List (String × String)) (s : String)
    (h : s ∉ entries.map Prod.fst) (hp : s ∉ objectProtoKeys) :
    jsLookup entries s = .undefined := by
  have hfind : entries.find? (fun e => e.1 == s) = none := by
    rw [List.find?_eq_none]
    intro e he
    simp only [beq_iff_eq]
    intro heq
    exact h (heq ▸ List.mem_map_of_mem Prod.fst he)
  unfold jsLookup
  simp only [hfind]
  rw [if_neg hp]

theorem tableOrPending_default (entries : List (String × String))
    (s : String) (h : s ∉ entries.map Prod.fst)
    (hp : s ∉ objectProtoKeys) :
    jsOr (jsLookup entries s) (JSValue.str "PENDING") =
      JSValue.str "PENDING" := by
  rw [jsLookup_not_found entries s h hp]
  rfl

theorem tableOrPending_canonical (entries : List (String × String))
    (hvals : ∀ e ∈ entries, e.2 ∈ canonicalOrderStatuses) (s : String)
    (hp : s ∉ objectProtoKeys) :
    ∃ c, jsOr (jsLookup entries s) (JSValue.str "PENDING") =
      JSValue.str c ∧ c ∈ canonicalOrderStatuses := by
  unfold jsLookup
  cases hf : entries.find? (fun e => e.1 == s) with
  | none =>
    simp only [hf]
    rw [if_neg hp]
    exact ⟨"PENDING", rfl, by decide⟩
  | some e =>
    simp only [hf]
    have hv : e.2 ∈ canonicalOrderStatuses :=
      hvals e (List.mem_of_find?_eq_some hf)
    have hne : e.2 ≠ "" := by
      intro h0
      rw [h0] at hv
      exact absurd hv (by decide)
    refine ⟨e.2, ?_, hv⟩
    unfold jsOr
    rw [show jsTruthy (JSValue.str e.2) = true from by
      simp [jsTruthy, hne]]
    rfl

/-- C8 counterexample: a native status naming an inherited
Object.prototype member is not in any lookup table, yet it does not
normalize to PENDING: the prototype-chain hit is truthy, so the
or-default never fires and the result is the inherited member, outside
the canonical enum. -/
theorem normalizeStatus_proto_counterexample :
    "constructor" ∉ ebayStatusKeys ∧
    normalizeEbayStatus "constructor" =
      JSValue.protoMember "constructor" ∧
    normalizeEbayStatus "constructor" ≠ JSValue.str "PENDING" ∧
    (∀ c ∈ canonicalOrderStatuses,
      normalizeEbayStatus "constructor" ≠ JSValue.str c) ∧
    jsTruthy (jsLookup ebayStatusMap "constructor") = true ∧
    normalizeWooStatus "toString" = JSValue.protoMember "toString" ∧
    normalizeShopifyStatus (some "__proto__") =
      JSValue.protoMember "__proto__" := by
  decide

/-- C8 amended: for all six per-platform normalization functions, every
mapped native status yields its table entry inside the canonical enum,
and every native value absent from both the platform's lookup table and
the names inherited from Object.prototype normalizes to PENDING; a native
value naming an inherited Object.prototype member instead returns that
truthy inherited member, which is no canonical status string. Whenever
the input is not such a prototype name, the result is a canonical status
string (for Shopify also on null and the empty string). -/
theorem normalizeStatus_tables_default_and_proto :
    ((∀ s, s ∉ ebayStatusKeys → s ∉ objectProtoKeys →
        normalizeEbayStatus s = JSValue.str "PENDING") ∧
      (∀ s, s ∉ objectProtoKeys → ∃ c, normalizeEbayStatus s =
        JSValue.str c ∧ c ∈ canonicalOrderStatuses) ∧
      (∀ s ∈ objectProtoKeys,
        normalizeEbayStatus s = JSValue.protoMember s) ∧
      normalizeEbayStatus "NOT_STARTED" = JSValue.str "PENDING" ∧
      normalizeEbayStatus "IN_PROGRESS" = JSValue.str "PROCESSING" ∧
      normalizeEbayStatus "FULFILLED" = JSValue.str "SHIPPED") ∧
    ((∀ s, s ∉ amazonStatusKeys → s ∉ objectProtoKeys →
        normalizeAmazonStatus s = JSValue.str "PENDING") ∧
      (∀ s, s ∉ objectProtoKeys → ∃ c, normalizeAmazonStatus s =
        JSValue.str c ∧ c ∈ canonicalOrderStatuses) ∧
      (∀ s ∈ objectProtoKeys,
        normalizeAmazonStatus s = JSValue.protoMember s) ∧
      normalizeAmazonStatus "Pending" = JSValue.str "PENDING" ∧
      normalizeAmazonStatus "Unshipped" = JSValue.str "PROCESSING" ∧
      normalizeAmazonStatus "PartiallyShipped" = JSValue.str "PROCESSING" ∧
      normalizeAmazonStatus "Shipped" = JSValue.str "SHIPPED" ∧
      normalizeAmazonStatus "Canceled" = JSValue.str "CANCELLED") ∧
    ((∀ s, s ∉ etsyStatusKeys → s ∉ objectProtoKeys →
        normalizeEtsyStatus s = JSValue.str "PENDING") ∧
      (∀ s, s ∉ objectProtoKeys → ∃ c, normalizeEtsyStatus s =
        JSValue.str c ∧ c ∈ canonicalOrderStatuses) ∧
      (∀ s ∈ objectProtoKeys,
        normalizeEtsyStatus s = JSValue.protoMember s) ∧
      normalizeEtsyStatus "open" = JSValue.str "PENDING" ∧
      normalizeEtsyStatus "paid" = JSValue.str "PROCESSING" ∧
      normalizeEtsyStatus "completed" = JSValue.str "SHIPPED" ∧
      normalizeEtsyStatus "canceled" = JSValue.str "CANCELLED") ∧
    ((∀ s, s ∉ shopifyStatusKeys → s ∉ objectProtoKeys →
        normalizeShopifyStatus (some s) = JSValue.str "PENDING") ∧
      (∀ s, s ∉ objectProtoKeys → ∃ c, normalizeShopifyStatus (some s) =
        JSValue.str c ∧ c ∈ canonicalOrderStatuses) ∧
      (∀ s ∈ objectProtoKeys,
        normalizeShopifyStatus (some s) = JSValue.protoMember s) ∧
      normalizeShopifyStatus none = JSValue.str "PENDING" ∧
      normalizeShopifyStatus (some "pending") = JSValue.str "PENDING" ∧
      normalizeShopifyStatus (some "fulfilled") = JSValue.str "SHIPPED" ∧
      normalizeShopifyStatus (some "partial") =
        JSValue.str "PROCESSING") ∧
    ((∀ s, s ∉ wooStatusKeys → s ∉ objectProtoKeys →
        normalizeWooStatus s = JSValue.str "PENDING") ∧
      (∀ s, s ∉ objectProtoKeys → ∃ c, normalizeWooStatus s =
        JSValue.str c ∧ c ∈ canonicalOrderStatuses) ∧
      (∀ s ∈ objectProtoKeys,
        normalizeWooStatus s = JSValue.protoMember s) ∧
      normalizeWooStatus "pending" = JSValue.str "PENDING" ∧
      normalizeWooStatus "processing" = JSValue.str "PROCESSING" ∧
      normalizeWooStatus "on-hold" = JSValue.str "PENDING" ∧
      normalizeWooStatus "completed" = JSValue.str "DELIVERED" ∧
      normalizeWooStatus "cancelled" = JSValue.str "CANCELLED" ∧
      normalizeWooStatus "refunded" = JSValue.str "REFUNDED" ∧
      normalizeWooStatus "failed" = JSValue.str "CANCELLED") ∧
    ((∀ s, s ∉ googleStatusKeys → s ∉ objectProtoKeys →
        normalizeGoogleStatus s = JSValue.str "PENDING") ∧
      (∀ s, s ∉ objectProtoKeys → ∃ c, normalizeGoogleStatus s =
        JSValue.str c ∧ c ∈ canonicalOrderStatuses) ∧
      (∀ s ∈ objectProtoKeys,
        normalizeGoogleStatus s = JSValue.protoMember s) ∧
      normalizeGoogleStatus "active" = JSValue.str "PROCESSING" ∧
      normalizeGoogleStatus "shipped" = JSValue.str "SHIPPED" ∧
      normalizeGoogleStatus "delivered" = JSValue.str "DELIVERED" ∧
      normalizeGoogleStatus "canceled" = JSValue.str "CANCELLED" ∧
      normalizeGoogleStatus "returned" = JSValue.str "REFUNDED") := by
  refine ⟨⟨?_, ?_, by decide, by decide, by decide, by decide⟩,
    ⟨?_, ?_, by decide, by decide, by decide, by decide, by decide,
      by decide⟩,
    ⟨?_, ?_, by decide, by decide, by decide, by decide, by decide⟩,
    ⟨?_, ?_, by decide, by decide, by decide, by decide, by decide⟩,
    ⟨?_, ?_, by decide, by decide, by decide, by decide, by decide,
      by decide, by decide, by decide⟩,
    ⟨?_, ?_, by decide, by decide, by decide, by decide, by decide,
      by decide⟩⟩
  · intro s hk hp
    exact tableOrPending_default ebayStatusMap s hk hp
  · intro s hp
    exact tableOrPending_canonical ebayStatusMap (by decide) s hp
  · intro s hk hp
    exact tableOrPending_default amazonStatusMap s hk hp
  · intro s hp
    exact tableOrPending_canonical amazonStatusMap (by decide) s hp
  · intro s hk hp
    exact tableOrPending_default etsyStatusMap s hk hp
  · intro s hp
    exact tableOrPending_canonical etsyStatusMap (by decide) s hp
  · intro s hk hp
    show (if s = "" then JSValue.str "PENDING"
      else jsOr (jsLookup shopifyStatusMap s) (JSValue.str "PENDING")) =
      JSValue.str "PENDING"
    by_cases h0 : s = ""
    · rw [if_pos h0]
    · rw [if_neg h0]
      exact tableOrPending_default shopifyStatusMap s hk hp
  · intro s hp
    show ∃ c, (if s = "" then JSValue.str "PENDING"
      else jsOr (jsLookup shopifyStatusMap s) (JSValue.str "PENDING")) =
      JSValue.str c ∧ c ∈ canonicalOrderStatuses
    by_cases h0 : s = ""
    · rw [if_pos h0]
      exact ⟨"PENDING", rfl, by decide⟩
    · rw [if_neg h0]
      exact tableOrPending_canonical shopifyStatusMap (by decide) s hp
  · intro s hk hp
    exact tableOrPending_default wooStatusMap s hk hp
  · intro s hp
    exact tableOrPending_canonical wooStatusMap (by decide) s hp
  · intro s hk hp
    exact tableOrPending_default googleStatusMap s hk hp
  · intro s hp
    exact tableOrPending_canonical googleStatusMap (by decide) s hp

/-- C8 amended witness: the theorem applied at concrete native statuses -
an unmapped non-prototype value defaulting to PENDING, a mapped value, a
canonical-result instance, and a prototype name yielding the inherited
member. -/
theorem normalizeStatus_tables_default_and_proto_witness :
    normalizeEbayStatus "SOMETHING_ELSE" = JSValue.str "PENDING" ∧
    normalizeWooStatus "on-hold" = JSValue.str "PENDING" ∧
    (∃ c, normalizeGoogleStatus "shipped" = JSValue.str c ∧
      c ∈ canonicalOrderStatuses) ∧
    normalizeAmazonStatus "valueOf" = JSValue.protoMember "valueOf" := by
  refine ⟨?_, ?_, ?_, ?_⟩
  · exact normalizeStatus_tables_default_and_proto.1.1 "SOMETHING_ELSE"
      (by decide) (by decide)
  · exact
      normalizeStatus_tables_default_and_proto.2.2.2.2.1.2.2.2.2.2.1
  · exact normalizeStatus_tables_default_and_proto.2.2.2.2.2.2.1
      "shipped" (by decide)
  · exact normalizeStatus_tables_default_and_proto.2.1.2.2.1 "valueOf"
      (by decide)

/-- C2: for every product in the pass whose listings (with nonnegative
canonical quantity) sum to more than its canonical quantity, one run sets
every one of its listings to floor(quantity over listing count), after
which the listings sum to at most the canonical quantity; and the whole
pass is idempotent, so a second run with no intervening change mutates
nothing. -/
theorem preventOverselling_corrects_and_idempotent
    (ps : List OversellProduct) (p : OversellProduct) (hmem : p ∈ ps)
    (hq : 0 ≤ p.quantity) (hover : totalListed p > p.quantity) :
    adjustProduct p ∈ preventOverselling ps ∧
    (∀ l ∈ (adjustProduct p).listings,
        l.quantity = some (Int.fdiv p.quantity p.listings.length)) ∧
    totalListed (adjustProduct p) ≤ p.quantity ∧
    preventOverselling (preventOverselling ps) = preventOverselling ps := by
  have hne : p.listings ≠ [] := by
    intro hnil
    rw [totalListed_eq_sum, hnil] at hover
    simp at hover
    exact absurd hover (not_lt.mpr hq)
  have hlen : p.listings.length ≠ 0 := by
    simpa [List.length_eq_zero] using hne
  refine ⟨?_, ?_, ?_, ?_⟩
  · exact List.mem_map_of_mem adjustProduct hmem
  · intro l hl
    rw [adjustProduct_of_over p hover] at hl
    simp only [List.mem_map] at hl
    obtain ⟨l0, _, hl0⟩ := hl
    rw [← hl0]
  · rw [totalListed_adjusted p hover]
    exact mul_fdiv_le p.quantity p.listings.length hlen
  · unfold preventOverselling
    rw [List.map_map]
    apply List.map_congr_left
    intro x _
    exact adjustProduct_idem x

/-- C2 witness: the spec's worked example, quantity 10 against three
listings of 10 each. -/
theorem preventOverselling_corrects_and_idempotent_witness :
    adjustProduct sampleOversell ∈ preventOverselling [sampleOversell] ∧
    (∀ l ∈ (adjustProduct sampleOversell).listings,
        l.quantity = some (Int.fdiv sampleOversell.quantity
          sampleOversell.listings.length)) ∧
    totalListed (adjustProduct sampleOversell) ≤ sampleOversell.quantity ∧
    preventOverselling (preventOverselling [sampleOversell]) =
      preventOverselling [sampleOversell] :=
  preventOverselling_corrects_and_idempotent [sampleOversell] sampleOversell
    (by decide) (by decide) (by decide)

/-- The failed status is terminal: once a job has exhausted its attempts,
further scheduler rounds leave it untouched. -/
theorem runFailing_fixed (opts : QueueOptions) (n : Nat)
    (h : (runFailing opts n).status = JobStatus.failed) :
    ∀ m, runFailing opts (n + m) = runFailing opts n := by
  intro m
  induction m with
  | zero => rfl
  | succ k ih =>
    have hstep : ∀ j : JobState, j.status = JobStatus.failed →
        stepFailing opts j = j := by
      intro j hj
      obtain ⟨a, st⟩ := j
      have hst : st = JobStatus.failed := hj
      subst hst
      rfl
    calc runFailing opts (n + (k + 1))
        = stepFailing opts (runFailing opts (n + k)) := rfl
      _ = stepFailing opts (runFailing opts n) := by rw [ih]
      _ = runFailing opts n := hstep _ h

/-- C5: under an always-failing handler, the three sync queues run a job
exactly 3 times and the webhook queue exactly 5 times, with the delay
between consecutive attempts growing by the exponential backoff formula
(base delay 2000 ms for sync, 1000 ms for webhooks); after the final
attempt the job sits in the failed (dead-letter) state with the full
attempt count and never runs again. -/
theorem queue_retry_ceiling_dead_letter :
    (productSyncQueueOpts.attempts = 3 ∧
      runFailing productSyncQueueOpts 1 = ⟨1, .delayed 2000⟩ ∧
      runFailing productSyncQueueOpts 2 = ⟨2, .delayed 6000⟩ ∧
      runFailing productSyncQueueOpts 3 = ⟨3, .failed⟩ ∧
      ∀ m, runFailing productSyncQueueOpts (3 + m) =
        runFailing productSyncQueueOpts 3) ∧
    (orderSyncQueueOpts.attempts = 3 ∧
      runFailing orderSyncQueueOpts 3 = ⟨3, .failed⟩ ∧
      ∀ m, runFailing orderSyncQueueOpts (3 + m) =
        runFailing orderSyncQueueOpts 3) ∧
    (inventorySyncQueueOpts.attempts = 3 ∧
      runFailing inventorySyncQueueOpts 3 = ⟨3, .failed⟩ ∧
      ∀ m, runFailing inventorySyncQueueOpts (3 + m) =
        runFailing inventorySyncQueueOpts 3) ∧
    (webhookQueueOpts.attempts = 5 ∧
      runFailing webhookQueueOpts 1 = ⟨1, .delayed 1000⟩ ∧
      runFailing webhookQueueOpts 2 = ⟨2, .delayed 3000⟩ ∧
      runFailing webhookQueueOpts 3 = ⟨3, .delayed 7000⟩ ∧
      runFailing webhookQueueOpts 4 = ⟨4, .delayed 15000⟩ ∧
      runFailing webhookQueueOpts 5 = ⟨5, .failed⟩ ∧
      ∀ m, runFailing webhookQueueOpts (5 + m) =
        runFailing webhookQueueOpts 5) := by
  refine ⟨⟨rfl, by decide, by decide, by decide, ?_⟩,
    ⟨rfl, by decide, ?_⟩, ⟨rfl, by decide, ?_⟩,
    ⟨rfl, by decide, by decide, by decide, by decide, by decide, ?_⟩⟩
  · exact runFailing_fixed productSyncQueueOpts 3 (by decide)
  · exact runFailing_fixed orderSyncQueueOpts 3 (by decide)
  · exact runFailing_fixed inventorySyncQueueOpts 3 (by decide)
  · exact runFailing_fixed webhookQueueOpts 5 (by decide)

/-- C7: creating a product whose SKU is already taken answers 400 and
leaves the store exactly as it was, existing row included. -/
theorem productsPOST_duplicate_sku (userId : String) (d : ProductCreateData)
    (db : List ProductRow) (h : ∃ pr ∈ db, pr.sku = d.sku) :
    productsPOST userId d db = (400, db) := by
  obtain ⟨pr, hmem, hsku⟩ := h
  unfold productsPOST
  cases hfind : db.find? (fun pr => pr.sku == d.sku) with
  | none =>
    rw [List.find?_eq_none] at hfind
    exact absurd (by simp [hsku]) (hfind pr hmem)
  | some x => rfl

/-- C7 witness: the duplicate-SKU rejection at a concrete store. -/
theorem productsPOST_duplicate_sku_witness :
    productsPOST "u2"
      { sku := "SKU-1", title := "Copy", price := 1, quantity := 1 }
      [{ userId := "u1", sku := "SKU-1", title := "Original", price := 9,
         quantity := 3 }] =
      (400, [{ userId := "u1", sku := "SKU-1", title := "Original",
               price := 9, quantity := 3 }]) :=
  productsPOST_duplicate_sku "u2" _ _
    ⟨{ userId := "u1", sku := "SKU-1", title := "Original", price := 9,
       quantity := 3 }, by decide, rfl⟩

/-- Per-user job multiplicity of the coordinator's order-sync duty, by
induction over the user list. -/
theorem syncAllUsersOrders_count (now : Int) :
    ∀ users : List CoordUser, (users.map (·.id)).Nodup →
      ∀ u ∈ users,
        ((syncAllUsersOrders now users).filter
            (fun j => j.userId == u.id)).length =
          if u.platformConnections.isEmpty then 0 else 1 := by
  intro users
  induction users with
  | nil => intro _ u hu; simp at hu
  | cons v rest ih =>
    intro hnodup u hu
    rw [List.map_cons, List.nodup_cons] at hnodup
    have hexpand : syncAllUsersOrders now (v :: rest) =
        (if v.platformConnections.length ≠ 0 then
          [{ userId := v.id,
             platforms := v.platformConnections.map (·.platform),
             startDate := now - 24 * 60 * 60 * 1000 }] else []) ++
        syncAllUsersOrders now rest := by
      unfold syncAllUsersOrders
      by_cases hv : v.platformConnections.length ≠ 0
      · rw [List.filter_cons_of_pos (by simpa using hv), if_pos hv,
          List.map_cons]
        rfl
      · rw [List.filter_cons_of_neg (by simpa using hv), if_neg hv]
        rfl
    have hrest_id : ∀ j ∈ syncAllUsersOrders now rest,
        j.userId ∈ rest.map (·.id) := by
      intro j hj
      unfold syncAllUsersOrders at hj
      rw [List.mem_map] at hj
      obtain ⟨w, hw, hwj⟩ := hj
      rw [List.mem_filter] at hw
      rw [← hwj]
      exact List.mem_map_of_mem _ hw.1
    rcases List.mem_cons.mp hu with hu | hu
    · subst hu
      rw [hexpand, List.filter_append, List.length_append]
      have hzero : ((syncAllUsersOrders now rest).filter
          (fun j => j.userId == u.id)).length = 0 := by
        rw [List.length_eq_zero, List.filter_eq_nil_iff]
        intro j hj
        have hmem := hrest_id j hj
        simp only [beq_iff_eq]
        intro hjeq
        rw [hjeq] at hmem
        exact hnodup.1 hmem
      rw [hzero]
      by_cases hv : u.platformConnections.length ≠ 0
      · rw [if_pos hv]
        have hfalse : u.platformConnections.isEmpty = false := by
          cases hpc : u.platformConnections with
          | nil => rw [hpc] at hv; simp at hv
          | cons a l => rfl
        simp [hfalse]
      · rw [if_neg hv]
        have htrue : u.platformConnections.isEmpty = true := by
          cases hpc : u.platformConnections with
          | nil => rfl
          | cons a l => rw [hpc] at hv; simp at hv
        simp [htrue]
    · have hvne : v.id ≠ u.id := by
        intro hvu
        exact hnodup.1 (hvu ▸ List.mem_map_of_mem _ hu)
      rw [hexpand, List.filter_append, List.length_append]
      have hzero : ((if v.platformConnections.length ≠ 0 then
          [{ userId := v.id,
             platforms := v.platformConnections.map (·.platform),
             startDate := now - 24 * 60 * 60 * 1000 }] else
          ([] : List OrderSyncJob)).filter
            (fun j => j.userId == u.id)).length = 0 := by
        split
        · simp [hvne]
        · rfl
      rw [hzero, Nat.zero_add]
      exact ih hnodup.2 u hu

/-- C9 counterexample: a tenant whose only connection is DISCONNECTED (so
it has no active connection) still gets an order-sync job enqueued by
syncAllUsersOrders, while the claimed active-only rule enqueues none; the
two disagree on that input. -/
theorem syncAllUsersOrders_active_only_counterexample :
    (syncAllUsersOrders 0 [coordDisconnected]).length = 1 ∧
    (syncAllUsersOrdersClaim 0 [coordDisconnected]).length = 0 ∧
    syncAllUsersOrders 0 [coordDisconnected] ≠
      syncAllUsersOrdersClaim 0 [coordDisconnected] := by
  refine ⟨rfl, rfl, ?_⟩
  decide

/-- C9 amended: each run of the scheduled order-sync duty enqueues exactly
one job for every tenant that has at least one platform connection of any
status (and none for tenants with no connection at all), each job covering
that tenant's connected platforms and bounded to orders from the last 24
hours. -/
theorem syncAllUsersOrders_one_job_per_connected_tenant
    (now : Int) (users : List CoordUser)
    (hnodup : (users.map (·.id)).Nodup) :
    (∀ j ∈ syncAllUsersOrders now users,
        j.startDate = now - 24 * 60 * 60 * 1000 ∧
        ∃ u ∈ users, u.id = j.userId ∧ u.platformConnections ≠ [] ∧
          j.platforms = u.platformConnections.map (·.platform)) ∧
    (∀ u ∈ users,
        ((syncAllUsersOrders now users).filter
            (fun j => j.userId == u.id)).length =
          if u.platformConnections.isEmpty then 0 else 1) := by
  constructor
  · intro j hj
    unfold syncAllUsersOrders at hj
    rw [List.mem_map] at hj
    obtain ⟨u, hu, huj⟩ := hj
    rw [List.mem_filter] at hu
    refine ⟨by rw [← huj], u, hu.1, ?_, ?_, ?_⟩
    · rw [← huj]
    · intro hnil
      rw [hnil] at hu
      simpa using hu.2
    · rw [← huj]
  · exact syncAllUsersOrders_count now users hnodup

/-- C9 amended witness: two tenants, one with a single (disconnected)
connection and one with none; exactly one job, for the connected tenant,
bounded to the last 24 hours. -/
theorem syncAllUsersOrders_one_job_per_connected_tenant_witness :
    (∀ j ∈ syncAllUsersOrders 1000000 coordUsersSample,
        j.startDate = 1000000 - 24 * 60 * 60 * 1000 ∧
        ∃ u ∈ coordUsersSample, u.id = j.userId ∧
          u.platformConnections ≠ [] ∧
          j.platforms = u.platformConnections.map (·.platform)) ∧
    (∀ u ∈ coordUsersSample,
        ((syncAllUsersOrders 1000000 coordUsersSample).filter
            (fun j => j.userId == u.id)).length =
          if u.platformConnections.isEmpty then 0 else 1) :=
  syncAllUsersOrders_one_job_per_connected_tenant 1000000 coordUsersSample
    (by decide)

/-- C4: a webhook POST (not an eBay challenge handshake) whose platform
verification computes invalid answers 401 Unauthorized, enqueues no
webhook-processing job, and leaves the canonical store untouched. -/
theorem webhook_invalid_signature_rejected
    (hmacB64 hmacHex : String → String → String) (env : WebhookEnv)
    (conns : List ConnRow) (req : WebhookReq) (p : Platform)
    (hch : ¬ (p = Platform.EBAY ∧ truthy req.challengeCode))
    (hinv : webhookIsValid hmacB64 hmacHex env req p = false) :
    webhooksPOST hmacB64 hmacHex env conns req p =
      { status := 401, enqueued := [], store := conns } := by
  unfold webhooksPOST
  rw [if_neg hch, hinv]
  simp

/-- C4 witness: a Shopify delivery with a wrong HMAC header is rejected
with 401 and nothing enqueued. -/
theorem webhook_invalid_signature_rejected_witness :
    webhooksPOST sampleHmac sampleHmac sampleEnv sampleConns
      badSigShopifyReq Platform.SHOPIFY =
      { status := 401, enqueued := [], store := sampleConns } :=
  webhook_invalid_signature_rejected sampleHmac sampleHmac sampleEnv
    sampleConns badSigShopifyReq Platform.SHOPIFY (by decide) (by decide)

/-- C10: for Shopify, eBay, Amazon and WooCommerce, a webhook POST with no
signature header (or, for WooCommerce, one arriving while the webhook
secret is unconfigured) is treated as verified: the computed isValid stays
true, the handler answers 200, and it proceeds to event extraction and
enqueues the resolved job whenever the tenant resolves. -/
theorem webhook_missing_signature_accepted
    (hmacB64 hmacHex : String → String → String) (env : WebhookEnv)
    (conns : List ConnRow) (req : WebhookReq) (p : Platform)
    (hcase :
      (p = Platform.SHOPIFY ∧ req.shopifyHmac = none) ∨
      (p = Platform.EBAY ∧ req.challengeCode = none ∧
        req.ebaySignature = none) ∨
      (p = Platform.AMAZON ∧ req.amazonSignature = none) ∨
      (p = Platform.WOOCOMMERCE ∧
        (req.wooSignature = none ∨ env.wooSecret = none)))
    (hch : ¬ (p = Platform.EBAY ∧ truthy req.challengeCode)) :
    webhookIsValid hmacB64 hmacHex env req p = true ∧
    (webhooksPOST hmacB64 hmacHex env conns req p).status = 200 ∧
    (∀ e usr, webhookEventUser conns req p = (e, usr) → usr ≠ "" →
      (webhooksPOST hmacB64 hmacHex env conns req p).enqueued =
        [{ platform := p, event := e, userId := usr }]) := by
  have hvalid : webhookIsValid hmacB64 hmacHex env req p = true := by
    rcases hcase with ⟨hp, hh⟩ | ⟨hp, _, hh⟩ | ⟨hp, hh⟩ | ⟨hp, hh⟩
    · subst hp
      simp [webhookIsValid, hh, truthy]
    · subst hp
      simp [webhookIsValid, hh, truthy]
    · subst hp
      simp [webhookIsValid, hh, truthy]
    · subst hp
      rcases hh with hh | hh <;> simp [webhookIsValid, hh, truthy]
  have hpost : webhooksPOST hmacB64 hmacHex env conns req p =
      { status := 200,
        enqueued :=
          (if (webhookEventUser conns req p).2 = "" then [] else
            [{ platform := p, event := (webhookEventUser conns req p).1,
               userId := (webhookEventUser conns req p).2 }]),
        store := conns } := by
    unfold webhooksPOST
    rw [if_neg hch, hvalid]
    simp
  refine ⟨hvalid, by rw [hpost], ?_⟩
  intro e usr heu husr
  rw [hpost]
  simp only [heu]
  rw [if_neg husr]

/-- C10 witness: a Shopify delivery with no HMAC header and a resolvable
shop domain is accepted and enqueued for the resolved tenant. -/
theorem webhook_missing_signature_accepted_witness :
    webhookIsValid sampleHmac sampleHmac sampleEnv noHeaderShopifyReq
      Platform.SHOPIFY = true ∧
    (webhooksPOST sampleHmac sampleHmac sampleEnv sampleConns
      noHeaderShopifyReq Platform.SHOPIFY).status = 200 ∧
    (webhooksPOST sampleHmac sampleHmac sampleEnv sampleConns
      noHeaderShopifyReq Platform.SHOPIFY).enqueued =
      [{ platform := Platform.SHOPIFY, event := "orders/create",
         userId := "user-1" }] := by
  have h := webhook_missing_signature_accepted sampleHmac sampleHmac
    sampleEnv sampleConns noHeaderShopifyReq Platform.SHOPIFY
    (Or.inl ⟨rfl, rfl⟩) (by decide)
  exact ⟨h.1, h.2.1, h.2.2 "orders/create" "user-1" (by decide) (by decide)⟩

/-- C1 counterexample: the upsert key of saveOrder omits the platform.
Importing, for the same tenant, two remote orders with equal
platformOrderId from two different platforms leaves one single Order row,
whereas an upsert keyed by (tenant, platform, platformOrderId) as the
claim states would keep two; on this input the two disagree. -/
theorem saveOrder_key_counterexample :
    (saveOrder "u1" Platform.EBAY sampleOrderData
        (saveOrder "u1" Platform.SHOPIFY sampleOrderData [])).length = 1 ∧
    (saveOrderClaimKey "u1" Platform.EBAY sampleOrderData
        (saveOrderClaimKey "u1" Platform.SHOPIFY sampleOrderData [])).length
      = 2 ∧
    saveOrder "u1" Platform.EBAY sampleOrderData
        (saveOrder "u1" Platform.SHOPIFY sampleOrderData []) ≠
      saveOrderClaimKey "u1" Platform.EBAY sampleOrderData
        (saveOrderClaimKey "u1" Platform.SHOPIFY sampleOrderData []) := by
  refine ⟨rfl, rfl, ?_⟩
  decide

/-- C1 amended: orders are upserted by the key (tenant, platformOrderId) -
the platform is not part of the key. Starting from a store with no row for
that key (ids consistent), importing the same remote order twice yields
exactly one matching Order row: the store grows by exactly that row, the
second import refreshes only status, total and shipping address, and the
row keeps the first import's platform, customer fields, currency, order
date and line items, so no duplicate items appear. -/
theorem saveOrder_idempotent_import (u : String) (p p2 : Platform)
    (d d2 : OrderData) (db : List OrderRow)
    (hkey : ∀ o ∈ db, orderKeyMatch u d.platformOrderId o = false)
    (hids : ∀ o ∈ db, o.id < db.length)
    (hpoid : d2.platformOrderId = d.platformOrderId) :
    ∃ r, saveOrder u p2 d2 (saveOrder u p d db) = db ++ [r] ∧
      ((db ++ [r]).filter (orderKeyMatch u d.platformOrderId)).length = 1 ∧
      r.items = d.items ∧ r.status = d2.status ∧ r.total = d2.total ∧
      r.shippingAddress = d2.shippingAddress ∧ r.platform = p ∧
      r.customerName = d.customerName ∧
      r.customerEmail = d.customerEmail ∧
      r.currency = d.currency.getD "USD" ∧ r.orderDate = d.orderDate ∧
      r.userId = u ∧ r.platformOrderId = d.platformOrderId := by
  have hfind : db.find? (orderKeyMatch u d.platformOrderId) = none := by
    rw [List.find?_eq_none]
    intro o ho
    rw [hkey o ho]
    simp
  have hsave1 : saveOrder u p d db =
      db ++ [newOrderRow u p d db.length] := by
    unfold saveOrder
    rw [hfind]
  have hkeyr0 : orderKeyMatch u d.platformOrderId
      (newOrderRow u p d db.length) = true := by
    unfold orderKeyMatch newOrderRow
    simp
  have hfind2 : (db ++ [newOrderRow u p d db.length]).find?
      (orderKeyMatch u d2.platformOrderId) =
      some (newOrderRow u p d db.length) := by
    rw [hpoid, find?_append_of_none _ db _ hfind]
    exact List.find?_cons_of_pos _ hkeyr0
  have hsave2 : saveOrder u p2 d2 (db ++ [newOrderRow u p d db.length]) =
      db ++ [refreshOrder d2 (newOrderRow u p d db.length)] := by
    unfold saveOrder
    simp only [hfind2]
    rw [List.map_append]
    congr 1
    · conv_rhs => rw [← List.map_id db]
      apply List.map_congr_left
      intro o ho
      simp only [id_eq]
      rw [if_neg]
      intro hoid
      have hlt := hids o ho
      rw [hoid] at hlt
      simp only [newOrderRow] at hlt
      omega
    · simp
  refine ⟨refreshOrder d2 (newOrderRow u p d db.length),
    by rw [hsave1, hsave2], ?_, rfl, rfl, rfl, rfl, rfl, rfl, rfl, rfl,
    rfl, rfl, rfl⟩
  rw [List.filter_append]
  have hnil : db.filter (orderKeyMatch u d.platformOrderId) = [] := by
    rw [List.filter_eq_nil_iff]
    intro o ho
    rw [hkey o ho]
    simp
  rw [hnil]
  have hkeyr1 : orderKeyMatch u d.platformOrderId
      (refreshOrder d2 (newOrderRow u p d db.length)) = true := by
    unfold orderKeyMatch refreshOrder newOrderRow
    simp
  simp [hkeyr1]

/-- C1 amended witness: a fresh store, first import of the sample order
followed by a re-import after fulfillment. -/
theorem saveOrder_idempotent_import_witness :
    ∃ r, saveOrder "u1" Platform.SHOPIFY sampleOrderData2
        (saveOrder "u1" Platform.SHOPIFY sampleOrderData []) = [] ++ [r] ∧
      (([] ++ [r]).filter
          (orderKeyMatch "u1" sampleOrderData.platformOrderId)).length = 1 ∧
      r.items = sampleOrderData.items ∧
      r.status = sampleOrderData2.status ∧
      r.total = sampleOrderData2.total ∧
      r.shippingAddress = sampleOrderData2.shippingAddress ∧
      r.platform = Platform.SHOPIFY ∧
      r.customerName = sampleOrderData.customerName ∧
      r.customerEmail = sampleOrderData.customerEmail ∧
      r.currency = sampleOrderData.currency.getD "USD" ∧
      r.orderDate = sampleOrderData.orderDate ∧
      r.userId = "u1" ∧
      r.platformOrderId = sampleOrderData.platformOrderId :=
  saveOrder_idempotent_import "u1" Platform.SHOPIFY Platform.SHOPIFY
    sampleOrderData sampleOrderData2 []
    (by intro o ho; simp at ho) (by intro o ho; simp at ho) rfl

/-- Hex digits decode back to their value. -/
theorem hexDigitVal?_hexDigitChar (n : Nat) (h : n < 16) :
    hexDigitVal? (hexDigitChar n) = some n := by
  interval_cases n <;> decide

/-- Hex decoding inverts hex encoding on byte lists. -/
theorem hexDecode_hexEncode (bs : List Nat) (h : ∀ b ∈ bs, b < 256) :
    hexDecodeNode (hexEncode bs) = bs := by
  induction bs with
  | nil => rfl
  | cons b bs ih =>
    have hb : b < 256 := h b (List.mem_cons_self b bs)
    have hdiv : b / 16 < 16 := by omega
    have hmod : b % 16 < 16 := by omega
    have hcons : hexEncode (b :: bs) =
        hexDigitChar (b / 16) :: hexDigitChar (b % 16) :: hexEncode bs := rfl
    rw [hcons]
    simp only [hexDecodeNode, hexDigitVal?_hexDigitChar _ hdiv,
      hexDigitVal?_hexDigitChar _ hmod]
    rw [ih (fun x hx => h x (List.mem_cons_of_mem _ hx))]
    congr 1
    omega

/-- One step of splitColonAux on a cons cell. -/
theorem splitColonAux_cons (c : Char) (rest acc : List Char) :
    splitColonAux (c :: rest) acc =
      if c = ':' then acc.reverse :: splitColonAux rest []
      else splitColonAux rest (c :: acc) := rfl

/-- Hex output never contains the colon separator. -/
theorem hexEncode_ne_colon (bs : List Nat) (h : ∀ b ∈ bs, b < 256) :
    ∀ c ∈ hexEncode bs, c ≠ ':' := by
  induction bs with
  | nil => intro c hc; simp [hexEncode] at hc
  | cons b bs ih =>
    intro c hc
    have hb : b < 256 := h b (List.mem_cons_self b bs)
    have hcons : hexEncode (b :: bs) =
        hexDigitChar (b / 16) :: hexDigitChar (b % 16) :: hexEncode bs := rfl
    rw [hcons] at hc
    have hdigit : ∀ n, n < 16 → hexDigitChar n ≠ ':' := by
      intro n hn
      interval_cases n <;> decide
    simp only [List.mem_cons] at hc
    rcases hc with hc | hc | hc
    · exact hc ▸ hdigit _ (by omega)
    · exact hc ▸ hdigit _ (by omega)
    · exact ih (fun x hx => h x (List.mem_cons_of_mem _ hx)) c hc

/-- Splitting a colon-free chunk yields that single chunk. -/
theorem splitColonAux_no_colon (xs : List Char) (h : ∀ c ∈ xs, c ≠ ':') :
    ∀ acc, splitColonAux xs acc = [acc.reverse ++ xs] := by
  induction xs with
  | nil => intro acc; simp [splitColonAux]
  | cons c rest ih =>
    intro acc
    have hc : ¬ c = ':' := h c (List.mem_cons_self c rest)
    rw [splitColonAux_cons, if_neg hc,
      ih (fun x hx => h x (List.mem_cons_of_mem _ hx)) (c :: acc)]
    simp

/-- Splitting past the first colon after a colon-free chunk. -/
theorem splitColonAux_append_colon (xs rest : List Char)
    (h : ∀ c ∈ xs, c ≠ ':') :
    ∀ acc, splitColonAux (xs ++ ':' :: rest) acc =
      (acc.reverse ++ xs) :: splitColonAux rest [] := by
  induction xs with
  | nil =>
    intro acc
    rw [List.nil_append, splitColonAux_cons, if_pos rfl, List.append_nil]
  | cons c xs ih =>
    intro acc
    have hc : ¬ c = ':' := h c (List.mem_cons_self c xs)
    rw [List.cons_append, splitColonAux_cons, if_neg hc,
      ih (fun x hx => h x (List.mem_cons_of_mem _ hx)) (c :: acc)]
    simp

/-- The stored value produced by encrypt always splits into exactly the
three hex parts. -/
theorem splitColon_encrypt (A : AEAD) (key iv pt : List Nat)
    (hivb : ∀ b ∈ iv, b < 256)
    (hctb : ∀ b ∈ A.encBytes key iv pt, b < 256)
    (htagb : ∀ b ∈ A.tagOf key iv (A.encBytes key iv pt), b < 256) :
    splitColon (encrypt A key iv pt) =
      [hexEncode iv,
       hexEncode (A.tagOf key iv (A.encBytes key iv pt)),
       hexEncode (A.encBytes key iv pt)] := by
  unfold splitColon encrypt
  rw [List.append_assoc, List.cons_append]
  rw [splitColonAux_append_colon _ _ (hexEncode_ne_colon iv hivb) []]
  rw [splitColonAux_append_colon _ _ (hexEncode_ne_colon _ htagb) []]
  rw [splitColonAux_no_colon _ (hexEncode_ne_colon _ hctb) []]
  simp

/-- Reducing decrypt once the split shape is known. -/
theorem decrypt_eq_parts (A : AEAD) (key : List Nat) (s ivH tagH ctH : List Char)
    (h : splitColon s = [ivH, tagH, ctH]) :
    decrypt A key s = decryptParts A key ivH tagH ctH := by
  unfold decrypt
  rw [h]

/-- C3 amended and corrected behavior: decrypting an encryption returns the
original token bytes, and a malformed stored value (anything but three
colon-separated parts) fails closed with the generic decryption error; but
not every one-byte modification of a stored ciphertext fails: a
modification that truncates the hex-decoded authentication tag to a
shorter accepted GCM tag length (here the last tag hex digit becomes a
non-hex byte) is accepted and returns the original plaintext. The AEAD
hypotheses are the functional contract of AES-256-GCM: byte-valued
keystream and 16-byte tag, decryption inverting encryption. -/
theorem encrypt_decrypt_roundtrip_fail_closed
    (A : AEAD) (key iv pt : List Nat)
    (hivlen : iv.length = 16)
    (hivb : ∀ b ∈ iv, b < 256)
    (hctb : ∀ b ∈ A.encBytes key iv pt, b < 256)
    (htagb : ∀ b ∈ A.tagOf key iv (A.encBytes key iv pt), b < 256)
    (htaglen : (A.tagOf key iv (A.encBytes key iv pt)).length = 16)
    (hdec : A.decBytes key iv (A.encBytes key iv pt) = pt) :
    decrypt A key (encrypt A key iv pt) = .ok pt ∧
    (∀ s, (splitColon s).length ≠ 3 →
        decrypt A key s = .error "Failed to decrypt data") ∧
    decrypt toyAEAD toyKey
        ((encrypt toyAEAD toyKey toyIv toyPt).set 64 'z') = .ok toyPt := by
  refine ⟨?_, ?_, rfl⟩
  · rw [decrypt_eq_parts A key _ _ _ _
      (splitColon_encrypt A key iv pt hivb hctb htagb)]
    unfold decryptParts
    rw [hexDecode_hexEncode iv hivb, hexDecode_hexEncode _ htagb,
      hexDecode_hexEncode _ hctb]
    rw [if_neg (by rw [hivlen]; simp)]
    rw [if_pos ?hc]
    case hc =>
      rw [htaglen]
      rw [show (A.tagOf key iv (A.encBytes key iv pt)).take 16 =
          A.tagOf key iv (A.encBytes key iv pt) from by
        rw [← htaglen, List.take_length]]
      simp [validGCMTagLength]
    rw [hdec]
  · intro s hs
    rcases hsp : splitColon s with _ | ⟨a, _ | ⟨b, _ | ⟨c, _ | ⟨dd, tl⟩⟩⟩⟩
    · unfold decrypt; rw [hsp]
    · unfold decrypt; rw [hsp]
    · unfold decrypt; rw [hsp]
    · exact absurd (by rw [hsp]; rfl) hs
    · unfold decrypt; rw [hsp]

/-- C3 witness: round trip and malformed-input rejection at the concrete
AEAD instance, key, iv and token. -/
theorem encrypt_decrypt_roundtrip_fail_closed_witness :
    decrypt toyAEAD toyKey (encrypt toyAEAD toyKey toyIv toyPt) =
      .ok toyPt ∧
    decrypt toyAEAD toyKey "nonsense".toList =
      .error "Failed to decrypt data" :=
  ⟨(encrypt_decrypt_roundtrip_fail_closed toyAEAD toyKey toyIv toyPt
      (by decide) (by decide) (by decide) (by decide) (by decide)
      (by decide)).1,
   (encrypt_decrypt_roundtrip_fail_closed toyAEAD toyKey toyIv toyPt
      (by decide) (by decide) (by decide) (by decide) (by decide)
      (by decide)).2.1 "nonsense".toList (by decide)⟩

/-- C3 counterexample: changing exactly one byte of a stored ciphertext
(the final hex digit of the auth-tag segment becomes a non-hex byte) does
not make decrypt raise: Node's hex decoding truncates the tag to 15 bytes,
setAuthTag accepts a 120-bit GCM tag, and the prefix comparison succeeds,
so decrypt returns the plaintext instead of failing. -/
theorem decrypt_one_byte_tamper_counterexample :
    (encrypt toyAEAD toyKey toyIv toyPt).set 64 'z' ≠
      encrypt toyAEAD toyKey toyIv toyPt ∧
    ((encrypt toyAEAD toyKey toyIv toyPt).set 64 'z').length =
      (encrypt toyAEAD toyKey toyIv toyPt).length ∧
    decrypt toyAEAD toyKey
        ((encrypt toyAEAD toyKey toyIv toyPt).set 64 'z') = .ok toyPt := by
  refine ⟨by decide, rfl, rfl⟩

theorem find?_append_of_some {α} (p : α → Bool) (l₁ l₂ : List α) (x : α)
    (h : l₁.find? p = some x) : (l₁ ++ l₂).find? p = some x := by
  induction l₁ with
  | nil => simp at h
  | cons y ys ih =>
    by_cases hy : p y = true
    · rw [List.find?_cons_of_pos _ hy] at h
      rw [List.cons_append, List.find?_cons_of_pos _ hy]
      exact h
    · rw [List.find?_cons_of_neg _ hy] at h
      rw [List.cons_append, List.find?_cons_of_neg _ hy]
      exact ih h

theorem listingKeyMatch_upd {pid : String} {p : Platform}
    (upd : ListingRow → ListingRow)
    (hupd : ∀ l, (upd l).productId = l.productId ∧
      (upd l).platform = l.platform) (l : ListingRow) :
    listingKeyMatch pid p (upd l) = listingKeyMatch pid p l := by
  unfold listingKeyMatch
  rw [(hupd l).1, (hupd l).2]

theorem getListing_upsert_self (pid : String) (p : Platform)
    (upd : ListingRow → ListingRow) (mk : ListingRow)
    (db : List ListingRow)
    (hupd : ∀ l, (upd l).productId = l.productId ∧
      (upd l).platform = l.platform)
    (hmk : listingKeyMatch pid p mk = true) :
    getListing pid p (upsertListing pid p upd mk db) =
      some ((getListing pid p db).elim mk upd) := by
  unfold getListing upsertListing
  cases hf : db.find? (listingKeyMatch pid p) with
  | none =>
    simp only [hf]
    rw [find?_append_of_none _ db [mk] hf, List.find?_cons_of_pos _ hmk]
    rfl
  | some l =>
    simp only [hf]
    rw [find?_map_ite_self (listingKeyMatch pid p) upd
      (listingKeyMatch_upd upd hupd) db l hf]
    rfl

theorem getListing_upsert_other (pid pid2 : String) (p p2 : Platform)
    (upd : ListingRow → ListingRow) (mk : ListingRow)
    (db : List ListingRow)
    (hne : ¬ (pid2 = pid ∧ p2 = p))
    (hupd : ∀ l, (upd l).productId = l.productId ∧
      (upd l).platform = l.platform)
    (hmk : mk.productId = pid ∧ mk.platform = p) :
    getListing pid2 p2 (upsertListing pid p upd mk db) =
      getListing pid2 p2 db := by
  have hmk2 : listingKeyMatch pid2 p2 mk = false := by
    unfold listingKeyMatch
    simp only [decide_eq_false_iff_not, not_and]
    intro h1 h2
    exact hne ⟨by rw [← hmk.1, h1], by rw [← hmk.2, h2]⟩
  unfold getListing upsertListing
  cases hf : db.find? (listingKeyMatch pid p) with
  | none =>
    simp only [hf]
    cases hf2 : db.find? (listingKeyMatch pid2 p2) with
    | none =>
      rw [find?_append_of_none _ db [mk] hf2,
        List.find?_cons_of_neg _ (by rw [hmk2]; simp)]
      rfl
    | some x => exact find?_append_of_some _ db [mk] x hf2
  | some l =>
    simp only [hf]
    apply find?_map_ite_other
    · exact listingKeyMatch_upd upd hupd
    · intro x hx
      unfold listingKeyMatch at hx ⊢
      simp only [decide_eq_true_eq] at hx
      simp only [decide_eq_false_iff_not, not_and]
      intro h1 h2
      exact hne ⟨by rw [← hx.1, h1], by rw [← hx.2, h2]⟩

theorem syncSingle_success (conn : Platform → Bool)
    (call : Platform → Except String String) (prod : ProductS)
    (p : Platform) (db : List ListingRow) (pid : String)
    (hc : conn p = true) (hok : call p = .ok pid) :
    syncToSinglePlatform conn call prod p db =
      (syncOkResult p pid,
       upsertListing prod.id p
         (fun l => { l with platformProductId := pid, price := prod.price, quantity := prod.quantity, status := "active", syncErrors := none })
         (syncSuccessRow prod p pid) db) := by
  unfold syncToSinglePlatform
  rw [hc, hok]
  simp

theorem syncSingle_error (conn : Platform → Bool)
    (call : Platform → Except String String) (prod : ProductS)
    (p : Platform) (db : List ListingRow) (e : String)
    (hc : conn p = true) (herr : call p = .error e) :
    syncToSinglePlatform conn call prod p db =
      (syncFailResult p e,
       upsertListing prod.id p (fun l => { l with syncErrors := some e })
         (syncErrorRow prod p e) db) := by
  unfold syncToSinglePlatform
  rw [hc, herr]
  simp

theorem getListing_syncSingle_success (conn : Platform → Bool)
    (call : Platform → Except String String) (prod : ProductS)
    (p : Platform) (db : List ListingRow) (pid : String)
    (hc : conn p = true) (hok : call p = .ok pid) :
    getListing prod.id p (syncToSinglePlatform conn call prod p db).2 =
      some (syncSuccessRow prod p pid) := by
  have hsnd : (syncToSinglePlatform conn call prod p db).2 =
      upsertListing prod.id p
        (fun l => { l with platformProductId := pid, price := prod.price, quantity := prod.quantity, status := "active", syncErrors := none })
        (syncSuccessRow prod p pid) db := by
    rw [syncSingle_success conn call prod p db pid hc hok]
  rw [hsnd]
  rw [getListing_upsert_self prod.id p
    (fun l => { l with platformProductId := pid, price := prod.price, quantity := prod.quantity, status := "active", syncErrors := none })
    (syncSuccessRow prod p pid) db (fun l => ⟨rfl, rfl⟩)
    (by unfold listingKeyMatch syncSuccessRow; simp)]
  cases hg : getListing prod.id p db with
  | none => rfl
  | some l =>
    have hp : listingKeyMatch prod.id p l = true := List.find?_some hg
    unfold listingKeyMatch at hp
    simp only [decide_eq_true_eq] at hp
    simp only [Option.elim]
    unfold syncSuccessRow
    obtain ⟨a, b, c, d, f, g, i⟩ := l
    simp only at hp
    simp only [hp.1, hp.2]

theorem getListing_syncSingle_error (conn : Platform → Bool)
    (call : Platform → Except String String) (prod : ProductS)
    (p : Platform) (db : List ListingRow) (e : String)
    (hc : conn p = true) (herr : call p = .error e) :
    ∃ l, getListing prod.id p
        (syncToSinglePlatform conn call prod p db).2 = some l ∧
      l.syncErrors = some e := by
  have hsnd : (syncToSinglePlatform conn call prod p db).2 =
      upsertListing prod.id p (fun l => { l with syncErrors := some e })
        (syncErrorRow prod p e) db := by
    rw [syncSingle_error conn call prod p db e hc herr]
  rw [hsnd]
  rw [getListing_upsert_self prod.id p
    (fun l => { l with syncErrors := some e })
    (syncErrorRow prod p e) db (fun l => ⟨rfl, rfl⟩)
    (by unfold listingKeyMatch syncErrorRow; simp)]
  cases hg : getListing prod.id p db with
  | none => exact ⟨syncErrorRow prod p e, rfl, rfl⟩
  | some l => exact ⟨{ l with syncErrors := some e }, rfl, rfl⟩

theorem getListing_syncSingle_other (conn : Platform → Bool)
    (call : Platform → Except String String) (prod : ProductS)
    (p p2 : Platform) (db : List ListingRow) (hne : p2 ≠ p) :
    getListing prod.id p2 (syncToSinglePlatform conn call prod p db).2 =
      getListing prod.id p2 db := by
  have hne2 : ¬ (prod.id = prod.id ∧ p2 = p) := fun h => hne h.2
  unfold syncToSinglePlatform
  cases hc : conn p with
  | false => rfl
  | true =>
    rw [if_neg (by simp)]
    cases hcall : call p with
    | ok pid =>
      exact getListing_upsert_other prod.id prod.id p p2 _ _ db hne2
        (fun l => ⟨rfl, rfl⟩) ⟨rfl, rfl⟩
    | error e =>
      exact getListing_upsert_other prod.id prod.id p p2 _ _ db hne2
        (fun l => ⟨rfl, rfl⟩) ⟨rfl, rfl⟩

theorem syncProduct_nil (conn : Platform → Bool)
    (call : Platform → Except String String) (prod : ProductS)
    (db : List ListingRow) :
    syncProduct conn call prod [] db = ([], db) := rfl

theorem syncProductGo_acc (conn : Platform → Bool)
    (call : Platform → Except String String) (prod : ProductS)
    (ps : List Platform) :
    ∀ acc db,
      ps.foldl (syncStep conn call prod) (acc, db) =
        (acc ++ (syncProduct conn call prod ps db).1,
         (syncProduct conn call prod ps db).2) := by
  induction ps with
  | nil => intro acc db; simp [syncProduct]
  | cons q qs ih =>
    intro acc db
    have h2 : syncProduct conn call prod (q :: qs) db =
        ([(syncToSinglePlatform conn call prod q db).1] ++
          (syncProduct conn call prod qs
            (syncToSinglePlatform conn call prod q db).2).1,
         (syncProduct conn call prod qs
            (syncToSinglePlatform conn call prod q db).2).2) := by
      show (q :: qs).foldl (syncStep conn call prod) ([], db) = _
      rw [List.foldl_cons]
      rw [show syncStep conn call prod ([], db) q =
        ([(syncToSinglePlatform conn call prod q db).1],
         (syncToSinglePlatform conn call prod q db).2) from rfl]
      rw [ih]
    rw [List.foldl_cons]
    rw [show syncStep conn call prod (acc, db) q =
      (acc ++ [(syncToSinglePlatform conn call prod q db).1],
       (syncToSinglePlatform conn call prod q db).2) from rfl]
    rw [ih, h2]
    rw [List.append_assoc]

theorem syncProduct_cons (conn : Platform → Bool)
    (call : Platform → Except String String) (prod : ProductS)
    (q : Platform) (qs : List Platform) (db : List ListingRow) :
    syncProduct conn call prod (q :: qs) db =
      ((syncToSinglePlatform conn call prod q db).1 ::
        (syncProduct conn call prod qs
          (syncToSinglePlatform conn call prod q db).2).1,
       (syncProduct conn call prod qs
          (syncToSinglePlatform conn call prod q db).2).2) := by
  show (q :: qs).foldl (syncStep conn call prod) ([], db) = _
  rw [List.foldl_cons]
  rw [show syncStep conn call prod ([], db) q =
    ([(syncToSinglePlatform conn call prod q db).1],
     (syncToSinglePlatform conn call prod q db).2) from rfl]
  rw [syncProductGo_acc]
  simp

theorem getListing_syncProduct_notMem (conn : Platform → Bool)
    (call : Platform → Except String String) (prod : ProductS)
    (ps : List Platform) (p2 : Platform) :
    ∀ db, p2 ∉ ps →
      getListing prod.id p2 (syncProduct conn call prod ps db).2 =
        getListing prod.id p2 db := by
  induction ps with
  | nil => intro db _; rfl
  | cons q qs ih =>
    intro db hnm
    rw [syncProduct_cons]
    have hq : p2 ≠ q := fun h => hnm (h ▸ List.mem_cons_self q qs)
    have hqs : p2 ∉ qs := fun h => hnm (List.mem_cons_of_mem q h)
    rw [ih _ hqs, getListing_syncSingle_other conn call prod q p2 db hq]

theorem syncProduct_go_spec (conn : Platform → Bool)
    (call : Platform → Except String String) (prod : ProductS)
    (pf : Platform) (e : String) (pidOf : Platform → String)
    (hcallf : call pf = .error e) :
    ∀ (ps : List Platform) (db : List ListingRow), ps.Nodup →
      (∀ p ∈ ps, conn p = true) →
      (∀ p ∈ ps, p ≠ pf → call p = .ok (pidOf p)) →
      (syncProduct conn call prod ps db).1 =
        ps.map (fun p => if p = pf then syncFailResult p e
          else syncOkResult p (pidOf p)) ∧
      (∀ p ∈ ps, p ≠ pf →
        getListing prod.id p (syncProduct conn call prod ps db).2 =
          some (syncSuccessRow prod p (pidOf p))) ∧
      (pf ∈ ps → ∃ l,
        getListing prod.id pf (syncProduct conn call prod ps db).2 =
          some l ∧ l.syncErrors = some e) := by
  intro ps
  induction ps with
  | nil =>
    intro db _ _ _
    refine ⟨rfl, ?_, ?_⟩
    · intro p hp; simp at hp
    · intro hp; simp at hp
  | cons q qs ih =>
    intro db hnd hconn hcall
    obtain ⟨hnq, hndqs⟩ := List.nodup_cons.mp hnd
    have hconnq : conn q = true := hconn q (List.mem_cons_self q qs)
    have ihh := ih (syncToSinglePlatform conn call prod q db).2 hndqs
      (fun p hp => hconn p (List.mem_cons_of_mem q hp))
      (fun p hp => hcall p (List.mem_cons_of_mem q hp))
    rw [syncProduct_cons]
    refine ⟨?_, ?_, ?_⟩
    · rw [List.map_cons]
      rw [ihh.1]
      by_cases hq : q = pf
      · subst hq
        rw [if_pos rfl,
          syncSingle_error conn call prod q db e hconnq hcallf]
      · rw [if_neg hq, syncSingle_success conn call prod q db (pidOf q)
          hconnq (hcall q (List.mem_cons_self q qs) hq)]
    · intro p hp hne
      rcases List.mem_cons.mp hp with hp | hp
      · subst hp
        rw [getListing_syncProduct_notMem conn call prod qs p _ hnq]
        exact getListing_syncSingle_success conn call prod p db (pidOf p)
          hconnq (hcall p (List.mem_cons_self p qs) hne)
      · exact ihh.2.1 p hp hne
    · intro hpf
      rcases List.mem_cons.mp hpf with hpf | hpf
      · subst hpf
        rw [getListing_syncProduct_notMem conn call prod qs pf _ hnq]
        exact getListing_syncSingle_error conn call prod pf db e hconnq
          hcallf
      · exact ihh.2.2 hpf

/-- C6: when one platform's adapter call throws, syncProduct still runs
every other platform in the set, updating its PlatformListing with the new
platform id, synced price/quantity, active status and cleared errors; the
failing platform's error is recorded on its own PlatformListing; and the
returned result list reports every platform's success or failure
individually, in order. -/
theorem syncProduct_partial_failure_isolation (conn : Platform → Bool)
    (call : Platform → Except String String) (prod : ProductS)
    (platforms : List Platform) (db : List ListingRow) (pf : Platform)
    (e : String) (pidOf : Platform → String)
    (hmem : pf ∈ platforms) (hnd : platforms.Nodup)
    (hconn : ∀ p ∈ platforms, conn p = true)
    (hcallf : call pf = .error e)
    (hcall : ∀ p ∈ platforms, p ≠ pf → call p = .ok (pidOf p)) :
    (syncProduct conn call prod platforms db).1 =
      platforms.map (fun p => if p = pf then syncFailResult p e
        else syncOkResult p (pidOf p)) ∧
    (∀ p ∈ platforms, p ≠ pf →
      getListing prod.id p (syncProduct conn call prod platforms db).2 =
        some (syncSuccessRow prod p (pidOf p))) ∧
    (∃ l, getListing prod.id pf
        (syncProduct conn call prod platforms db).2 = some l ∧
      l.syncErrors = some e) := by
  have h := syncProduct_go_spec conn call prod pf e pidOf hcallf platforms
    db hnd hconn hcall
  exact ⟨h.1, h.2.1, h.2.2 hmem⟩

/-- C6 witness: three platforms, the eBay call throwing; the other two
listings are written and the results report each platform individually. -/
theorem syncProduct_partial_failure_isolation_witness :
    (syncProduct sampleConnAll sampleCall sampleProd
        [Platform.SHOPIFY, Platform.EBAY, Platform.ETSY] []).1 =
      [Platform.SHOPIFY, Platform.EBAY, Platform.ETSY].map
        (fun p => if p = Platform.EBAY then syncFailResult p "boom"
          else syncOkResult p (samplePidOf p)) ∧
    (∀ p ∈ [Platform.SHOPIFY, Platform.EBAY, Platform.ETSY],
      p ≠ Platform.EBAY →
      getListing sampleProd.id p (syncProduct sampleConnAll sampleCall
          sampleProd [Platform.SHOPIFY, Platform.EBAY, Platform.ETSY]
          []).2 =
        some (syncSuccessRow sampleProd p (samplePidOf p))) ∧
    (∃ l, getListing sampleProd.id Platform.EBAY
        (syncProduct sampleConnAll sampleCall sampleProd
          [Platform.SHOPIFY, Platform.EBAY, Platform.ETSY] []).2 =
        some l ∧ l.syncErrors = some "boom") :=
  syncProduct_partial_failure_isolation sampleConnAll sampleCall sampleProd
    [Platform.SHOPIFY, Platform.EBAY, Platform.ETSY] [] Platform.EBAY
    "boom" samplePidOf (by decide) (by decide)
    (by intro p hp; rfl) (by rfl)
    (by
      intro p hp hne
      fin_cases hp
      · rfl
      · exact absurd rfl hne
      · rfl)

end MyEcomm
